import Mathlib

/-!
The self-recursive Fibonacci service (`src/main.go`)

A shallow embedding of `fibHandler` and `updateDiskMetrics`.

* Go's `int` is taken to be the 64-bit signed integer of the usual server
  targets; arithmetic on it wraps (`wrapInt`).
* Go strings are modelled as `List Char`.
* The library calls the handler relies on (`strconv.Atoi`, the `fmt` verbs
  it uses, `http.ResponseWriter`) are modelled after their documented
  behaviour.
* The two goroutines that `fibHandler` starts are modelled as two small
  programs whose statements are interleaved by an arbitrary schedule.
* The code does not order the calls the two goroutines make on the response
  writer (lines 176-182 run without the lock). The writer records who calls
  into it; once both goroutines have done so the response is taken to be
  undetermined (`ResponseWriter.finish` is `none`) and nothing is stated
  about its status or body.
* The `float64` operations of `updateDiskMetrics` are parameters.
-/

namespace FibService

/-! ## Definitions -/

/-! ### Go `int` -/

/-- Smallest value of Go's 64-bit `int`. -/
def minInt : Int := -9223372036854775808

/-- Largest value of Go's 64-bit `int`. -/
def maxInt : Int := 9223372036854775807

/-- Two's complement wrap-around of a mathematical integer into `int`. -/
def wrapInt (x : Int) : Int :=
  (x + 9223372036854775808) % 18446744073709551616 - 9223372036854775808

/-- The integer is representable as a Go `int`. -/
def InRange (x : Int) : Prop := minInt ≤ x ∧ x ≤ maxInt

instance (x : Int) : Decidable (InRange x) := by
  unfold InRange; exact inferInstance

/-! ### The `fmt` verbs the handler uses -/

/-- The ASCII character of a decimal digit. -/
def digitChar (d : Nat) : Char :=
  match d with
  | 0 => '0' | 1 => '1' | 2 => '2' | 3 => '3' | 4 => '4'
  | 5 => '5' | 6 => '6' | 7 => '7' | 8 => '8' | _ => '9'

/-- Decimal digits of `n`, most significant first, pushed in front of `acc`. -/
def fmtNatAux : Nat → Nat → List Char → List Char
  | 0, _, acc => acc
  | fuel + 1, n, acc =>
    if n < 10 then digitChar n :: acc
    else fmtNatAux fuel (n / 10) (digitChar (n % 10) :: acc)

/-- Decimal rendering of a natural number. -/
def fmtNat (n : Nat) : List Char := fmtNatAux (n + 1) n []

/-- The verb `%d` applied to an `int`: `fmt.Sprintf("%d", x)`. -/
def fmtInt (x : Int) : List Char :=
  if x < 0 then '-' :: fmtNat x.natAbs else fmtNat x.natAbs

/-- Elements of a `[]string` separated by single spaces. -/
def joinSpace : List (List Char) → List Char
  | [] => []
  | [s] => s
  | s :: rest => s ++ ' ' :: joinSpace rest

/-- The verb `%s` applied to a `[]string`: `[a b c]`, and `[]` for a nil slice. -/
def fmtStrings (vs : List (List Char)) : List Char :=
  '[' :: joinSpace vs ++ [']']

/-- The verb `%s` applied to an `int`, which `fmt` reports as a bad verb:
`%!s(int=5)`. -/
def fmtBadVerbS (n : Int) : List Char :=
  "%!s(int=".toList ++ fmtInt n ++ [')']

/-! ### `strconv.Atoi` -/

/-- The byte is one of `0` .. `9`. -/
def isDigit (c : Char) : Bool := decide (48 ≤ c.toNat) && decide (c.toNat ≤ 57)

/-- The loop of `Atoi` over the digits: `n = n*10 + int(ch - 48)`, failing at
the first byte that is not a digit. -/
def parseDigits : List Char → Nat → Option Nat
  | [], acc => some acc
  | c :: cs, acc =>
    if isDigit c then parseDigits cs (acc * 10 + (c.toNat - 48)) else none

/-- The digits that remain after an optional leading sign, and whether the
sign was `-`. -/
def splitSign (s : List Char) : Bool × List Char :=
  match s with
  | [] => (false, [])
  | c :: cs =>
    if c = '-' then (true, cs) else if c = '+' then (false, cs) else (false, c :: cs)

/-- Model of `strconv.Atoi`: `none` stands for a non-nil error (syntax error or
value out of the range of `int`), `some v` for `(v, nil)`. -/
def atoi (s : List Char) : Option Int :=
  let p := splitSign s
  if p.2 = [] then none
  else
    match parseDigits p.2 0 with
    | none => none
    | some n =>
      let v : Int := if p.1 then -(n : Int) else (n : Int)
      if minInt ≤ v ∧ v ≤ maxInt then some v else none

/-! ### `http.ResponseWriter` -/

/-- What the client receives: the status line and the body. -/
structure Response where
  status : Nat
  body : List Char
deriving DecidableEq, Repr

/-- State of an `http.ResponseWriter`. `status` is `none` until the header has
been sent; `headerCalls` lists every call of `WriteHeader` the handler made,
whatever its effect. A writer is not made for use by several goroutines at
once: `user` is the goroutine that called into it last, and `raced` says that
both goroutines of a request have called into it, with nothing that orders
their calls. `status` and `body` say what a writer used by one caller at a time
holds; once `raced` is set they say nothing about what the client receives. -/
structure ResponseWriter where
  status : Option Nat
  body : List Char
  headerCalls : List Nat
  user : Option Bool
  raced : Bool
deriving DecidableEq, Repr

/-- A fresh writer: nothing sent yet, no goroutine has called into it. -/
def ResponseWriter.new : ResponseWriter := ⟨none, [], [], none, false⟩

/-- Goroutine `t` calls into the writer (lines 178 and 181, which hold no lock):
if the other goroutine has done so before, the two have raced. -/
def ResponseWriter.enter (w : ResponseWriter) (t : Bool) : ResponseWriter :=
  { w with raced := w.raced || decide (w.user = some (!t)), user := some t }

/-- `w.WriteHeader(code)`: sends the header with this status code unless a
header has been sent already, in which case the call changes nothing that the
client sees. -/
def ResponseWriter.WriteHeader (w : ResponseWriter) (code : Nat) : ResponseWriter :=
  { w with
    status := match w.status with
      | some s => some s
      | none => some code
    headerCalls := w.headerCalls ++ [code] }

/-- `w.Write(data)`, which is what `fmt.Fprintf(w, ...)` ends in: if no header
has been sent yet, `WriteHeader(http.StatusOK)` is implied first. -/
def ResponseWriter.Write (w : ResponseWriter) (data : List Char) : ResponseWriter :=
  { w with
    status := match w.status with
      | some s => some s
      | none => some 200
    body := w.body ++ data }

/-- The response as sent when the handler returns: a handler that never wrote
anything answers `200` with an empty body. When the two goroutines have raced
on the writer the model does not say what is sent: `none`. -/
def ResponseWriter.finish (w : ResponseWriter) : Option Response :=
  if w.raced then none
  else some ⟨match w.status with
    | some s => s
    | none => 200, w.body⟩

/-! ### Requests and sub-calls -/

/-- An incoming request, reduced to `req.URL.Query()["i"]`: the values given
for the query parameter `i`, in order (empty when the parameter is absent). -/
structure Request where
  iValues : List (List Char)
deriving DecidableEq, Repr

/-- What `client.Do` and `ioutil.ReadAll` give back for one outbound call. -/
inductive Reply where
  | transportError
  | readError
  | ok (status : Nat) (body : List Char)
deriving DecidableEq, Repr

/-- Lines 123-127: `i` must be given exactly once and be accepted by `Atoi`;
`none` stands for `err != nil`. -/
def parseIndex (req : Request) : Option Int :=
  match req.iValues with
  | [v] => atoi v
  | _ => none

/-- Line 150: `fmt.Sprintf("http://127.0.0.1:3000/fibinternal?i=%d", n)`. -/
def subUrl (n : Int) : List Char :=
  "http://127.0.0.1:3000/fibinternal?i=".toList ++ fmtInt n

/-- Lines 156-169: the value of `resp` when the inner function gets as far as
the lock, `none` when it returns an error before (failed call, failed read of
the body, or a body that `Atoi` rejects). The status code of the reply is not
looked at. -/
def subResult : Reply → Option Int
  | Reply.transportError => none
  | Reply.readError => none
  | Reply.ok _ body => atoi body

/-- Line 129: `fmt.Fprintf(w, "Couldn't parse index '%s'.", req.URL.Query()["i"])`. -/
def parseFailureText (req : Request) : List Char :=
  "Couldn\x27t parse index \x27".toList ++ fmtStrings req.iValues ++ "\x27.".toList

/-- Line 181: `fmt.Fprintf(w, "Failed to call child index '%s'.\n", n)`, where
`n` is an `int`. -/
def failLine (n : Int) : List Char :=
  "Failed to call child index \x27".toList ++ fmtBadVerbS n ++ "\x27.\n".toList

/-! ### The two goroutines of `fibHandler` (lines 146-184) -/

/-- Program points of one goroutine (lines 146-184). -/
inductive Pc where
  /-- Lines 148-169: start the span, build the URL, `client.Do`, read the body,
  `Atoi`. -/
  | call
  /-- Line 171: `mtx.Lock()`. -/
  | lock
  /-- Line 173, `ret += resp`: the read of `ret`. -/
  | load
  /-- Line 173, `ret += resp`: the write of `ret`. -/
  | store
  /-- Line 172 (deferred): `mtx.Unlock()`; then `err == nil` at line 176. -/
  | unlock
  /-- Lines 176-177: `err != nil`, the read of `failed`. -/
  | check
  /-- Line 178: `w.WriteHeader(503)`. -/
  | header
  /-- Line 179: `failed = true`. -/
  | setFailed
  /-- Line 181: the failure line is written. -/
  | print
  /-- Line 183: `wg.Done()`. -/
  | wgDone
  /-- After `wg.Done()`. -/
  | done
deriving DecidableEq, Repr

/-- Accesses to what the goroutines share. -/
inductive Access where
  | netCall
  | readRet
  | writeRet
  | readFailed
  | writeFailed
deriving DecidableEq, Repr

/-- One access, with the goroutine that made it (`false`: offset 1, `true`:
offset 2) and whether that goroutine held `mtx` at that moment. -/
structure Event where
  who : Bool
  access : Access
  locked : Bool
deriving DecidableEq, Repr

/-- Local state of one goroutine. -/
structure Goroutine where
  n : Int
  pc : Pc
  resp : Int
  tmp : Int
deriving DecidableEq, Repr

/-- State of a request in the fan-out phase: the two goroutines, the variables
they share (`ret`, `failed`, `w`, `mtx`), and what has been observed so far:
the URLs called, the order in which the goroutines called `wg.Done()`, the
accesses. -/
structure Cfg where
  g1 : Goroutine
  g2 : Goroutine
  ret : Int
  failed : Bool
  w : ResponseWriter
  mtx : Option Bool
  calls : List (List Char)
  finished : List Bool
  log : List Event
deriving DecidableEq, Repr

/-- The goroutine with the given identity. -/
def Cfg.get (c : Cfg) (t : Bool) : Goroutine := if t then c.g2 else c.g1

/-- Replace the goroutine with the given identity. -/
def Cfg.set (c : Cfg) (t : Bool) (g : Goroutine) : Cfg :=
  if t then { c with g2 := g } else { c with g1 := g }

/-- Append an access of goroutine `t` to the log. -/
def Cfg.record (c : Cfg) (t : Bool) (a : Access) : Cfg :=
  { c with log := c.log ++ [⟨t, a, decide (c.mtx = some t)⟩] }

/-- One statement of goroutine `t`. A goroutine that has finished, or that
waits for the lock, does not move. The calls on `w` (lines 178 and 181) are
made without a lock: they are recorded with `ResponseWriter.enter`. -/
def step (net : List Char → Reply) (t : Bool) (c : Cfg) : Cfg :=
  let g := c.get t
  match g.pc with
  | Pc.call =>
    let c1 := c.record t Access.netCall
    let c2 := { c1 with calls := c1.calls ++ [subUrl g.n] }
    match subResult (net (subUrl g.n)) with
    | some v => c2.set t { g with pc := Pc.lock, resp := v }
    | none => c2.set t { g with pc := Pc.check }
  | Pc.lock =>
    match c.mtx with
    | none => { c with mtx := some t }.set t { g with pc := Pc.load }
    | some _ => c
  | Pc.load =>
    (c.record t Access.readRet).set t { g with pc := Pc.store, tmp := c.ret }
  | Pc.store =>
    let c1 := c.record t Access.writeRet
    { c1 with ret := wrapInt (g.tmp + g.resp) }.set t { g with pc := Pc.unlock }
  | Pc.unlock =>
    { c with mtx := none }.set t { g with pc := Pc.wgDone }
  | Pc.check =>
    (c.record t Access.readFailed).set t
      { g with pc := if c.failed then Pc.print else Pc.header }
  | Pc.header =>
    { c with w := (c.w.enter t).WriteHeader 503 }.set t { g with pc := Pc.setFailed }
  | Pc.setFailed =>
    let c1 := c.record t Access.writeFailed
    { c1 with failed := true }.set t { g with pc := Pc.print }
  | Pc.print =>
    { c with w := (c.w.enter t).Write (failLine g.n) }.set t { g with pc := Pc.wgDone }
  | Pc.wgDone =>
    { c with finished := c.finished ++ [t] }.set t { g with pc := Pc.done }
  | Pc.done => c

/-- Run the goroutines as the schedule says, one statement per entry. -/
def exec (net : List Char → Reply) (sched : List Bool) (c : Cfg) : Cfg :=
  sched.foldl (fun c t => step net t c) c

/-- Lines 134-135 and 141-146: `ret := 0`, `failed := false`, a fresh mutex, and
one goroutine for each of `i - 1` and `i - 2` (for `2 ≤ i` the subtraction
cannot overflow). -/
def Cfg.init (w : ResponseWriter) (i : Int) : Cfg :=
  { g1 := ⟨i - 1, Pc.call, 0, 0⟩
    g2 := ⟨i - 2, Pc.call, 0, 0⟩
    ret := 0
    failed := false
    w := w
    mtx := none
    calls := []
    finished := []
    log := [] }

/-- What `wg.Wait()` waits for: both goroutines have called `wg.Done()`. -/
def Cfg.allDone (c : Cfg) : Bool :=
  decide (c.g1.pc = Pc.done) && decide (c.g2.pc = Pc.done)

/-! ### The handler (lines 118-190) -/

/-- What one request did: the writer as the handler left it, the final value of
`ret`, the URLs it called, the order in which its goroutines called
`wg.Done()`, and their accesses. -/
structure Run where
  w : ResponseWriter
  ret : Int
  calls : List (List Char)
  finished : List Bool
  log : List Event
deriving DecidableEq, Repr

/-- The response the client receives, `none` when the model does not determine
it (see `ResponseWriter.finish`). -/
def Run.response (r : Run) : Option Response := r.w.finish

/-- Model of `fibHandler` (lines 118-190). `net` answers the outbound calls,
`sched` interleaves the two goroutines. The result is `none` when the schedule
ends before both goroutines have finished, that is while `wg.Wait()` still
blocks. The writes of the handler itself (lines 129-130 and 189) are ordered
with those of the goroutines by `wg.Wait()`. -/
def fibHandler (net : List Char → Reply) (sched : List Bool) (req : Request) :
    Option Run :=
  match parseIndex req with
  | none =>
    -- lines 128-132
    let w := (ResponseWriter.new.Write (parseFailureText req)).WriteHeader 503
    some ⟨w, 0, [], [], []⟩
  | some i =>
    if i < 2 then
      -- lines 137-138, 189
      some ⟨ResponseWriter.new.Write (fmtInt 1), 1, [], [], []⟩
    else
      -- lines 140-187, 189
      let c := exec net sched (Cfg.init ResponseWriter.new i)
      if c.allDone then
        some ⟨c.w.Write (fmtInt c.ret), c.ret, c.calls, c.finished, c.log⟩
      else none

/-- A request with the single value `i=<decimal>`. -/
def Request.ofInt (i : Int) : Request := ⟨[fmtInt i]⟩

/-! ### Schedules and networks used at concrete inputs -/

/-- The schedule that runs goroutine 1 to its end and then goroutine 2. -/
def schedSeq : List Bool :=
  [false, false, false, false, false, false, true, true, true, true, true, true]

/-- The schedule that runs goroutine 2 to its end and then goroutine 1. -/
def schedRev : List Bool :=
  [true, true, true, true, true, true, false, false, false, false, false, false]

/-- A network on which every call is answered with status 200 and body `1`. -/
def netOne : List Char → Reply := fun _ => Reply.ok 200 "1".toList

/-- A network on which every call fails in transport. -/
def netDown : List Char → Reply := fun _ => Reply.transportError

/-! ### The invariant of the fan-out phase -/

/-- The goroutine is between `mtx.Lock()` and `mtx.Unlock()`. -/
def Pc.crit : Pc → Bool
  | Pc.load => true
  | Pc.store => true
  | Pc.unlock => true
  | _ => false

/-- The goroutine has called `wg.Done()`. -/
def Pc.isDone : Pc → Bool
  | Pc.done => true
  | _ => false

/-- The goroutine has made its outbound call. -/
def Pc.called : Pc → Bool
  | Pc.call => false
  | _ => true

/-- What the goroutine has added to `ret` so far, given the value `o` its
sub-call yields. -/
def added (o : Option Int) : Pc → Int
  | Pc.unlock => o.getD 0
  | Pc.wgDone => o.getD 0
  | Pc.done => o.getD 0
  | _ => 0

/-- The goroutine has gone past the test of `failed` on the failure path with
`failed` being true from then on. -/
def pastSet (o : Option Int) : Pc → Bool
  | Pc.print => true
  | Pc.wgDone => o.isNone
  | Pc.done => o.isNone
  | _ => false

/-- The goroutine is on the failure path at a point where the header has been
sent. -/
def pastHdr (o : Option Int) : Pc → Bool
  | Pc.setFailed => true
  | Pc.print => true
  | Pc.wgDone => o.isNone
  | Pc.done => o.isNone
  | _ => false

/-- The goroutine has written its failure line (line 181). -/
def pastPrint (o : Option Int) : Pc → Bool
  | Pc.wgDone => o.isNone
  | Pc.done => o.isNone
  | _ => false

/-- The failure line the goroutine has written so far: none before line 181,
and none at all when its sub-call succeeded. -/
def written (o : Option Int) (n : Int) : Pc → List Char
  | Pc.wgDone => if o.isNone then failLine n else []
  | Pc.done => if o.isNone then failLine n else []
  | _ => []

/-- The program point agrees with the outcome `o` of the sub-call. -/
def pcOk (o : Option Int) (resp : Int) : Pc → Prop
  | Pc.lock => o = some resp
  | Pc.load => o = some resp
  | Pc.store => o = some resp
  | Pc.unlock => o = some resp
  | Pc.check => o = none
  | Pc.header => o = none
  | Pc.setFailed => o = none
  | Pc.print => o = none
  | _ => True

/-- The list holds `a` and `b` exactly as far as the flags say, in any order. -/
def orderOk {α : Type} (a b : α) (d1 d2 : Bool) (l : List α) : Prop :=
  (d1 = false → d2 = false → l = []) ∧
  (d1 = true → d2 = false → l = [a]) ∧
  (d1 = false → d2 = true → l = [b]) ∧
  (d1 = true → d2 = true → l = [a, b] ∨ l = [b, a])

/-- How the code uses the lock: `ret` is read and written only by the holder of
`mtx` (lines 171-174); the outbound call (line 156) and the accesses to `failed`
(lines 177 and 179) are made by a goroutine that does not hold it. -/
def Event.asCoded (e : Event) : Bool :=
  match e.access with
  | Access.netCall => !e.locked
  | Access.readRet => e.locked
  | Access.writeRet => e.locked
  | Access.readFailed => !e.locked
  | Access.writeFailed => !e.locked

/-- The goroutines keep their parameters, and their program points agree with the
outcomes of their sub-calls. -/
def InvPc (o1 o2 : Option Int) (i : Int) (c : Cfg) : Prop :=
  c.g1.n = i - 1 ∧ c.g2.n = i - 2 ∧
  pcOk o1 c.g1.resp c.g1.pc ∧ pcOk o2 c.g2.resp c.g2.pc

/-- The mutex is held exactly by a goroutine between `Lock` and `Unlock`, and at
most one goroutine is there. -/
def InvMtx (_o1 _o2 : Option Int) (_i : Int) (c : Cfg) : Prop :=
  (c.mtx = if c.g1.pc.crit then some false else if c.g2.pc.crit then some true else none) ∧
  (c.g1.pc.crit && c.g2.pc.crit) = false

/-- The running total is the wrapped sum of what the goroutines have added, and a
goroutine about to write `ret` has read its current value. -/
def InvRet (o1 o2 : Option Int) (_i : Int) (c : Cfg) : Prop :=
  (c.g1.pc = Pc.store → c.g1.tmp = c.ret) ∧
  (c.g2.pc = Pc.store → c.g2.tmp = c.ret) ∧
  c.ret = wrapInt (added o1 c.g1.pc + added o2 c.g2.pc)

/-- The flag `failed` and the status a writer used by one caller at a time would
have sent are determined by how far the failing goroutines have got. -/
def InvFail (o1 o2 : Option Int) (_i : Int) (c : Cfg) : Prop :=
  c.failed = (pastSet o1 c.g1.pc || pastSet o2 c.g2.pc) ∧
  (c.w.status = if pastHdr o1 c.g1.pc || pastHdr o2 c.g2.pc then some 503 else none)

/-- The body a writer used by one caller at a time would hold: the failure lines
written so far, in one order or the other. -/
def InvBody (o1 o2 : Option Int) (i : Int) (c : Cfg) : Prop :=
  c.w.body = written o1 (i - 1) c.g1.pc ++ written o2 (i - 2) c.g2.pc ∨
  c.w.body = written o2 (i - 2) c.g2.pc ++ written o1 (i - 1) c.g1.pc

/-- Only a goroutine whose sub-call failed calls into the writer, so the two
goroutines can race on it only when both sub-calls failed. -/
def InvRace (o1 o2 : Option Int) (_i : Int) (c : Cfg) : Prop :=
  (c.w.raced = true → o1 = none ∧ o2 = none) ∧
  (c.w.user = some false → o1 = none) ∧ (c.w.user = some true → o2 = none)

/-- A goroutine that has written its failure line is the last caller of the
writer, unless the other one has called into it as well. -/
def InvEnter (o1 o2 : Option Int) (_i : Int) (c : Cfg) : Prop :=
  (pastPrint o1 c.g1.pc = true → c.w.user = some false ∨ c.w.raced = true) ∧
  (pastPrint o2 c.g2.pc = true → c.w.user = some true ∨ c.w.raced = true)

/-- The goroutines that have called `wg.Done()`, in the order of their calls. -/
def InvFin (_o1 _o2 : Option Int) (_i : Int) (c : Cfg) : Prop :=
  orderOk false true c.g1.pc.isDone c.g2.pc.isDone c.finished

/-- The URLs called so far are those of the goroutines that are past their call. -/
def InvCalls (_o1 _o2 : Option Int) (i : Int) (c : Cfg) : Prop :=
  orderOk (subUrl (i - 1)) (subUrl (i - 2)) c.g1.pc.called c.g2.pc.called c.calls

/-- Every access made so far used the lock as `Event.asCoded` says. -/
def InvLog (_o1 _o2 : Option Int) (_i : Int) (c : Cfg) : Prop :=
  c.log.all Event.asCoded = true

/-- The invariant of the fan-out phase of a request with index `i`, where `o1`
and `o2` are the outcomes of the sub-calls for `i - 1` and `i - 2`. -/
def Inv (o1 o2 : Option Int) (i : Int) (c : Cfg) : Prop :=
  InvPc o1 o2 i c ∧ InvMtx o1 o2 i c ∧ InvRet o1 o2 i c ∧ InvFail o1 o2 i c ∧
  InvBody o1 o2 i c ∧ InvRace o1 o2 i c ∧ InvFin o1 o2 i c ∧ InvCalls o1 o2 i c ∧
  InvLog o1 o2 i c ∧ InvEnter o1 o2 i c

/-! ### Progress -/

/-- The number of statements the goroutine still has to execute, at most. -/
def remaining : Pc → Nat
  | Pc.call => 6
  | Pc.lock => 5
  | Pc.load => 4
  | Pc.store => 3
  | Pc.unlock => 2
  | Pc.check => 5
  | Pc.header => 4
  | Pc.setFailed => 3
  | Pc.print => 2
  | Pc.wgDone => 1
  | Pc.done => 0

/-! ### Concrete inputs -/

/-- The parameter `i - offset` of goroutine `t` (`false`: offset 1, `true`:
offset 2). -/
def subIndex (i : Int) (t : Bool) : Int := if t then i - 2 else i - 1

/-- A network on which the call for index 0 is answered with `200` and body `1`
and every other call fails in transport. -/
def netOnlyZero : List Char → Reply :=
  fun url => if url = subUrl 0 then Reply.ok 200 "1".toList else Reply.transportError

/-- A network that answers the call for index 1 with the largest `int` and every
other call with `1`. -/
def netLarge : List Char → Reply :=
  fun url => if url = subUrl 1 then Reply.ok 200 "9223372036854775807".toList
    else Reply.ok 200 "1".toList

/-- A schedule on which both goroutines test `failed` (line 177) before either
of them sets it (line 179); each then runs lines 178-183 on its own, goroutine 1
first. -/
def schedRace : List Bool :=
  [false, true, false, true, false, false, false, false, true, true, true, true]

/-- The body the handler gives to `i=2` when the sub-call for index 1 fails and
the one for index 0 is answered `1`. -/
def oneFailureBody : List Char :=
  "Failed to call child index \x27%!s(int=1)\x27.\n1".toList

/-- A network for the request `i=3`: the call for index 2 is answered with
status 503 and the failure body `oneFailureBody`, every other call with status
200 and body `1`. -/
def netParent : List Char → Reply :=
  fun url => if url = subUrl 2 then Reply.ok 503 oneFailureBody else Reply.ok 200 "1".toList

/-! ### The self-recursive topology -/

/-- The pure recursion on natural indices: 1 at 0 and at 1, then the sum of the
two previous values. -/
def fibNat : Nat → Nat
  | 0 => 1
  | 1 => 1
  | n + 2 => fibNat (n + 1) + fibNat n

/-- The pure recursive definition of the spec, on unbounded integers:
`f(i) = 1` for `i < 2` and `f(i) = f(i-1) + f(i-2)` for `2 ≤ i` (see
`fibSpec_base` and `fibSpec_step`). -/
def fibSpec (i : Int) : Int := (fibNat i.toNat : Int)

/-- The responses the service gives when every sub-call it makes is answered by
`fibHandler` itself: the reply to the call for index `n` is a response of the
service to the request `i=n`, delivered without failure. -/
inductive SelfResponds : Request → Response → Prop where
  | intro (net : List Char → Reply) (sched : List Bool) (req : Request) (run : Run)
      (resp : Response) (kids : Int → Response)
      (hrun : fibHandler net sched req = some run)
      (hresp : run.response = some resp)
      (hnet : ∀ n, subUrl n ∈ run.calls →
        net (subUrl n) = Reply.ok (kids n).status (kids n).body)
      (hkids : ∀ n, subUrl n ∈ run.calls → SelfResponds (Request.ofInt n) (kids n)) :
      SelfResponds req resp

/-! ### The resource sampler (`updateDiskMetrics`, lines 192-231) -/

/-- The fields of `syscall.Statfs_t` the loop reads (`Blocks` and `Bfree` are
`uint64`, `Bsize` is `int64`). -/
structure Statfs_t where
  Blocks : Nat
  Bfree : Nat
  Bsize : Int
deriving DecidableEq, Repr

/-- The zero value that `var stat syscall.Statfs_t` (line 214) declares anew in
every iteration. -/
def Statfs_t.zero : Statfs_t := ⟨0, 0, 0⟩

/-- The `float64` operations the loop uses, taken as parameters: the two
conversions, the product and the difference, with the facts about zero that
hold for IEEE 754 doubles (`float64(0)` is `+0`, `+0 * +0 = +0`,
`+0 - +0 = +0`). -/
structure Float64 where
  F : Type
  zero : F
  ofUint64 : Nat → F
  ofInt64 : Int → F
  mul : F → F → F
  sub : F → F → F
  ofUint64_zero : ofUint64 0 = zero
  ofInt64_zero : ofInt64 0 = zero
  mul_zero : mul zero zero = zero
  sub_zero : sub zero zero = zero

/-- The rational numbers as an instance of the parameters, with exact
arithmetic. -/
def Float64.exact : Float64 where
  F := Rat
  zero := 0
  ofUint64 := fun n => (n : Rat)
  ofInt64 := fun n => (n : Rat)
  mul := fun a b => a * b
  sub := fun a b => a - b
  ofUint64_zero := by simp
  ofInt64_zero := by simp
  mul_zero := by simp
  sub_zero := by simp

/-- What one iteration reads from the process and the host: `m.Sys` (a `uint64`)
after `runtime.ReadMemStats`, the result of `syscall.Statfs` on the working
directory (`none` when the call returns an error and leaves the buffer as it
was), `runtime.NumGoroutine()` (an `int`), and the two environment variables. -/
structure Readings where
  Sys : Nat
  statfs : Option Statfs_t
  NumGoroutine : Int
  projectDomain : String
  hostname : String

/-- One measurement of a batch. -/
inductive Measurement (M : Float64) where
  | float64 (name : String) (value : M.F)
  | int64 (name : String) (value : Int)

/-- The name of the instrument a measurement belongs to. -/
def Measurement.name {M : Float64} : Measurement M → String
  | Measurement.float64 n _ => n
  | Measurement.int64 n _ => n

/-- One call of `meter.RecordBatch`: the labels and the measurements. -/
structure Batch (M : Float64) where
  labels : List (String × String)
  measurements : List (Measurement M)

/-- Lines 214-216: the buffer after `syscall.Statfs(wd, &stat)`, whose error is
not looked at. -/
def statAfter (r : Readings) : Statfs_t :=
  match r.statfs with
  | some s => s
  | none => Statfs_t.zero

/-- Lines 212-228: the batch one iteration of the loop records. The conversion
`int64(m.Sys)` of a `uint64` wraps; `int64(runtime.NumGoroutine())` changes
nothing. -/
def sample (M : Float64) (r : Readings) : Batch M :=
  let stat := statAfter r
  let all := M.mul (M.ofUint64 stat.Blocks) (M.ofInt64 stat.Bsize)
  let free := M.mul (M.ofUint64 stat.Bfree) (M.ofInt64 stat.Bsize)
  { labels := [("glitch.com/app", r.projectDomain), ("glitch.com/container_id", r.hostname)]
    measurements :=
      [Measurement.float64 "disk_usage" (M.sub all free),
        Measurement.float64 "disk_quota" all,
        Measurement.int64 "mem_usage" (wrapInt r.Sys),
        Measurement.int64 "num_goroutines" r.NumGoroutine] }

/-- Lines 211-230: the batches recorded by the first `n` iterations of the
loop, where `env k` is what iteration `k` reads. The body of the loop has no
`break`, no `return` and looks at no error, so iteration `n` follows iteration
`n - 1` whatever was read. -/
def updateDiskMetrics (M : Float64) (env : Nat → Readings) : Nat → List (Batch M)
  | 0 => []
  | n + 1 => updateDiskMetrics M env n ++ [sample M (env n)]

/-! ## Theorems -/

/-! ### Printing and parsing decimal numbers -/

theorem digitChar_isDigit (d : Nat) : isDigit (digitChar d) = true := by
  unfold digitChar
  split <;> decide

theorem digitChar_toNat (d : Nat) (h : d < 10) : (digitChar d).toNat - 48 = d := by
  interval_cases d <;> decide

theorem fmtNatAux_eq (fuel : Nat) :
    ∀ n acc, n < fuel → fmtNatAux fuel n acc = fmtNatAux (n + 1) n [] ++ acc := by
  induction fuel using Nat.strong_induction_on with
  | _ fuel ih =>
    intro n acc hn
    cases fuel with
    | zero => omega
    | succ f =>
      by_cases h10 : n < 10
      · simp [fmtNatAux, h10]
      · have hdiv : n / 10 < n := Nat.div_lt_self (by omega) (by omega)
        have e1 : fmtNatAux (f + 1) n acc
            = fmtNatAux f (n / 10) (digitChar (n % 10) :: acc) := by
          simp [fmtNatAux, h10]
        have e2 : fmtNatAux (n + 1) n []
            = fmtNatAux n (n / 10) [digitChar (n % 10)] := by
          simp [fmtNatAux, h10]
        rw [e1, e2, ih f (by omega) (n / 10) _ (by omega),
          ih n (by omega) (n / 10) _ hdiv]
        simp

theorem fmtNat_small (n : Nat) (h : n < 10) : fmtNat n = [digitChar n] := by
  simp [fmtNat, fmtNatAux, h]

theorem fmtNat_large (n : Nat) (h : 10 ≤ n) :
    fmtNat n = fmtNat (n / 10) ++ [digitChar (n % 10)] := by
  have hdiv : n / 10 < n := Nat.div_lt_self (by omega) (by omega)
  have e : fmtNat n = fmtNatAux n (n / 10) [digitChar (n % 10)] := by
    simp [fmtNat, fmtNatAux, show ¬ n < 10 by omega]
  rw [e, fmtNatAux_eq n (n / 10) _ hdiv]
  rfl

theorem parseDigits_snoc (xs : List Char) (c : Char) :
    ∀ k, parseDigits (xs ++ [c]) k
      = (parseDigits xs k).bind
          (fun m => if isDigit c then some (m * 10 + (c.toNat - 48)) else none) := by
  induction xs with
  | nil => intro k; simp [parseDigits]
  | cons x xs ih =>
    intro k
    by_cases hx : isDigit x
    · simp [parseDigits, hx, ih]
    · simp [parseDigits, hx]

theorem parseDigits_fmtNat (n : Nat) : parseDigits (fmtNat n) 0 = some n := by
  induction n using Nat.strong_induction_on with
  | _ n ih =>
    by_cases h10 : n < 10
    · rw [fmtNat_small n h10]
      simp [parseDigits, digitChar_isDigit, digitChar_toNat n h10]
    · have hdiv : n / 10 < n := Nat.div_lt_self (by omega) (by omega)
      rw [fmtNat_large n (by omega), parseDigits_snoc, ih _ hdiv]
      simp [digitChar_isDigit, digitChar_toNat (n % 10) (Nat.mod_lt _ (by omega))]
      omega

/-- Every rendering of a natural number starts with a digit. -/
theorem fmtNat_head (n : Nat) : ∃ d rest, fmtNat n = digitChar d :: rest := by
  induction n using Nat.strong_induction_on with
  | _ n ih =>
    by_cases h10 : n < 10
    · exact ⟨n, [], fmtNat_small n h10⟩
    · have hdiv : n / 10 < n := Nat.div_lt_self (by omega) (by omega)
      obtain ⟨d, rest, h⟩ := ih _ hdiv
      exact ⟨d, rest ++ [digitChar (n % 10)], by rw [fmtNat_large n (by omega), h]; rfl⟩

theorem digitChar_ne_sign (d : Nat) : digitChar d ≠ '-' ∧ digitChar d ≠ '+' := by
  unfold digitChar
  split <;> decide

theorem splitSign_fmtNat (n : Nat) : splitSign (fmtNat n) = (false, fmtNat n) := by
  obtain ⟨d, rest, h⟩ := fmtNat_head n
  rw [h]
  simp [splitSign, (digitChar_ne_sign d).1, (digitChar_ne_sign d).2]

/-- Parsing what `%d` printed gives the number back, for every Go `int`. -/
theorem atoi_fmtInt (x : Int) (h : InRange x) : atoi (fmtInt x) = some x := by
  obtain ⟨hlo, hhi⟩ := h
  obtain ⟨d, rest, hd⟩ := fmtNat_head x.natAbs
  by_cases hneg : x < 0
  · have hs : splitSign (fmtInt x) = (true, fmtNat x.natAbs) := by
      simp [fmtInt, hneg, splitSign]
    have hne : fmtNat x.natAbs ≠ [] := by rw [hd]; simp
    have habs : |x| = -x := abs_of_neg hneg
    simp [atoi, hs, hne, parseDigits_fmtNat, habs, hlo, hhi]
  · have hs : splitSign (fmtInt x) = (false, fmtNat x.natAbs) := by
      simp [fmtInt, hneg, splitSign_fmtNat]
    have hne : fmtNat x.natAbs ≠ [] := by rw [hd]; simp
    have habs : |x| = x := abs_of_nonneg (by omega)
    simp [atoi, hs, hne, parseDigits_fmtNat, habs, hlo, hhi]

/-- A text that starts with a byte that is neither a digit nor a sign is
rejected by `Atoi`. -/
theorem atoi_of_bad_head (c : Char) (rest : List Char)
    (hd : isDigit c = false) (hm : c ≠ '-') (hp : c ≠ '+') :
    atoi (c :: rest) = none := by
  simp [atoi, splitSign, hm, hp, parseDigits, hd]

/-! ### Wrap-around -/

theorem wrapInt_of_inRange (x : Int) (h : InRange x) : wrapInt x = x := by
  obtain ⟨hlo, hhi⟩ := h
  unfold minInt at hlo
  unfold maxInt at hhi
  unfold wrapInt
  omega

theorem wrapInt_inRange (x : Int) : InRange (wrapInt x) := by
  unfold InRange minInt maxInt wrapInt
  omega

theorem wrapInt_add_wrapInt (x y : Int) :
    wrapInt (wrapInt x + wrapInt y) = wrapInt (x + y) := by
  unfold wrapInt
  omega

/-! ### The program points, one by one -/

theorem crit_at : Pc.crit Pc.call = false ∧
    Pc.crit Pc.lock = false ∧
    Pc.crit Pc.load = true ∧
    Pc.crit Pc.store = true ∧
    Pc.crit Pc.unlock = true ∧
    Pc.crit Pc.check = false ∧
    Pc.crit Pc.header = false ∧
    Pc.crit Pc.setFailed = false ∧
    Pc.crit Pc.print = false ∧
    Pc.crit Pc.wgDone = false ∧
    Pc.crit Pc.done = false :=
  ⟨rfl, rfl, rfl, rfl, rfl, rfl, rfl, rfl, rfl, rfl, rfl⟩

theorem isDone_at : Pc.isDone Pc.call = false ∧
    Pc.isDone Pc.lock = false ∧
    Pc.isDone Pc.load = false ∧
    Pc.isDone Pc.store = false ∧
    Pc.isDone Pc.unlock = false ∧
    Pc.isDone Pc.check = false ∧
    Pc.isDone Pc.header = false ∧
    Pc.isDone Pc.setFailed = false ∧
    Pc.isDone Pc.print = false ∧
    Pc.isDone Pc.wgDone = false ∧
    Pc.isDone Pc.done = true :=
  ⟨rfl, rfl, rfl, rfl, rfl, rfl, rfl, rfl, rfl, rfl, rfl⟩

theorem called_at : Pc.called Pc.call = false ∧
    Pc.called Pc.lock = true ∧
    Pc.called Pc.load = true ∧
    Pc.called Pc.store = true ∧
    Pc.called Pc.unlock = true ∧
    Pc.called Pc.check = true ∧
    Pc.called Pc.header = true ∧
    Pc.called Pc.setFailed = true ∧
    Pc.called Pc.print = true ∧
    Pc.called Pc.wgDone = true ∧
    Pc.called Pc.done = true :=
  ⟨rfl, rfl, rfl, rfl, rfl, rfl, rfl, rfl, rfl, rfl, rfl⟩

theorem added_at (o : Option Int) : added o Pc.call = 0 ∧
    added o Pc.lock = 0 ∧
    added o Pc.load = 0 ∧
    added o Pc.store = 0 ∧
    added o Pc.unlock = o.getD 0 ∧
    added o Pc.check = 0 ∧
    added o Pc.header = 0 ∧
    added o Pc.setFailed = 0 ∧
    added o Pc.print = 0 ∧
    added o Pc.wgDone = o.getD 0 ∧
    added o Pc.done = o.getD 0 :=
  ⟨rfl, rfl, rfl, rfl, rfl, rfl, rfl, rfl, rfl, rfl, rfl⟩

theorem pastSet_at (o : Option Int) : pastSet o Pc.call = false ∧
    pastSet o Pc.lock = false ∧
    pastSet o Pc.load = false ∧
    pastSet o Pc.store = false ∧
    pastSet o Pc.unlock = false ∧
    pastSet o Pc.check = false ∧
    pastSet o Pc.header = false ∧
    pastSet o Pc.setFailed = false ∧
    pastSet o Pc.print = true ∧
    pastSet o Pc.wgDone = o.isNone ∧
    pastSet o Pc.done = o.isNone :=
  ⟨rfl, rfl, rfl, rfl, rfl, rfl, rfl, rfl, rfl, rfl, rfl⟩

theorem pastHdr_at (o : Option Int) : pastHdr o Pc.call = false ∧
    pastHdr o Pc.lock = false ∧
    pastHdr o Pc.load = false ∧
    pastHdr o Pc.store = false ∧
    pastHdr o Pc.unlock = false ∧
    pastHdr o Pc.check = false ∧
    pastHdr o Pc.header = false ∧
    pastHdr o Pc.setFailed = true ∧
    pastHdr o Pc.print = true ∧
    pastHdr o Pc.wgDone = o.isNone ∧
    pastHdr o Pc.done = o.isNone :=
  ⟨rfl, rfl, rfl, rfl, rfl, rfl, rfl, rfl, rfl, rfl, rfl⟩

theorem pastPrint_at (o : Option Int) : pastPrint o Pc.call = false ∧
    pastPrint o Pc.lock = false ∧
    pastPrint o Pc.load = false ∧
    pastPrint o Pc.store = false ∧
    pastPrint o Pc.unlock = false ∧
    pastPrint o Pc.check = false ∧
    pastPrint o Pc.header = false ∧
    pastPrint o Pc.setFailed = false ∧
    pastPrint o Pc.print = false ∧
    pastPrint o Pc.wgDone = o.isNone ∧
    pastPrint o Pc.done = o.isNone :=
  ⟨rfl, rfl, rfl, rfl, rfl, rfl, rfl, rfl, rfl, rfl, rfl⟩

theorem written_at (o : Option Int) (n : Int) : written o n Pc.call = [] ∧
    written o n Pc.lock = [] ∧
    written o n Pc.load = [] ∧
    written o n Pc.store = [] ∧
    written o n Pc.unlock = [] ∧
    written o n Pc.check = [] ∧
    written o n Pc.header = [] ∧
    written o n Pc.setFailed = [] ∧
    written o n Pc.print = [] ∧
    written o n Pc.wgDone = (if o.isNone then failLine n else []) ∧
    written o n Pc.done = (if o.isNone then failLine n else []) :=
  ⟨rfl, rfl, rfl, rfl, rfl, rfl, rfl, rfl, rfl, rfl, rfl⟩

theorem pcOk_at (o : Option Int) (r : Int) :
    (pcOk o r Pc.call ↔ True) ∧
    (pcOk o r Pc.lock ↔ o = some r) ∧
    (pcOk o r Pc.load ↔ o = some r) ∧
    (pcOk o r Pc.store ↔ o = some r) ∧
    (pcOk o r Pc.unlock ↔ o = some r) ∧
    (pcOk o r Pc.check ↔ o = none) ∧
    (pcOk o r Pc.header ↔ o = none) ∧
    (pcOk o r Pc.setFailed ↔ o = none) ∧
    (pcOk o r Pc.print ↔ o = none) ∧
    (pcOk o r Pc.wgDone ↔ True) ∧
    (pcOk o r Pc.done ↔ True) :=
  ⟨Iff.rfl, Iff.rfl, Iff.rfl, Iff.rfl, Iff.rfl, Iff.rfl, Iff.rfl, Iff.rfl, Iff.rfl, Iff.rfl, Iff.rfl⟩

theorem pastSet_le_pastHdr (o : Option Int) (pc : Pc) :
    pastSet o pc = true → pastHdr o pc = true := by
  cases pc <;> simp [pastSet, pastHdr]

/-! ### What one statement does, program point by program point -/

theorem step_call (net : List Char → Reply) (t : Bool) (c : Cfg)
    (hp : (c.get t).pc = Pc.call) :
    step net t c =
      match subResult (net (subUrl (c.get t).n)) with
      | some v =>
        ({ (c.record t Access.netCall) with calls := c.calls ++ [subUrl (c.get t).n] }).set t
          { (c.get t) with pc := Pc.lock, resp := v }
      | none =>
        ({ (c.record t Access.netCall) with calls := c.calls ++ [subUrl (c.get t).n] }).set t
          { (c.get t) with pc := Pc.check } := by
  unfold step
  simp only [hp]
  rfl

theorem step_lock (net : List Char → Reply) (t : Bool) (c : Cfg)
    (hp : (c.get t).pc = Pc.lock) :
    step net t c =
      match c.mtx with
      | none => { c with mtx := some t }.set t { (c.get t) with pc := Pc.load }
      | some _ => c := by
  unfold step
  simp only [hp]

theorem step_load (net : List Char → Reply) (t : Bool) (c : Cfg)
    (hp : (c.get t).pc = Pc.load) :
    step net t c =
      (c.record t Access.readRet).set t { (c.get t) with pc := Pc.store, tmp := c.ret } := by
  unfold step
  simp only [hp]

theorem step_store (net : List Char → Reply) (t : Bool) (c : Cfg)
    (hp : (c.get t).pc = Pc.store) :
    step net t c =
      ({ (c.record t Access.writeRet) with
          ret := wrapInt ((c.get t).tmp + (c.get t).resp) }).set t
        { (c.get t) with pc := Pc.unlock } := by
  unfold step
  simp only [hp]

theorem step_unlock (net : List Char → Reply) (t : Bool) (c : Cfg)
    (hp : (c.get t).pc = Pc.unlock) :
    step net t c = { c with mtx := none }.set t { (c.get t) with pc := Pc.wgDone } := by
  unfold step
  simp only [hp]

theorem step_check (net : List Char → Reply) (t : Bool) (c : Cfg)
    (hp : (c.get t).pc = Pc.check) :
    step net t c =
      (c.record t Access.readFailed).set t
        { (c.get t) with pc := if c.failed then Pc.print else Pc.header } := by
  unfold step
  simp only [hp]

theorem step_header (net : List Char → Reply) (t : Bool) (c : Cfg)
    (hp : (c.get t).pc = Pc.header) :
    step net t c =
      { c with w := (c.w.enter t).WriteHeader 503 }.set t
        { (c.get t) with pc := Pc.setFailed } := by
  unfold step
  simp only [hp]

theorem step_setFailed (net : List Char → Reply) (t : Bool) (c : Cfg)
    (hp : (c.get t).pc = Pc.setFailed) :
    step net t c =
      ({ (c.record t Access.writeFailed) with failed := true }).set t
        { (c.get t) with pc := Pc.print } := by
  unfold step
  simp only [hp]

theorem step_print (net : List Char → Reply) (t : Bool) (c : Cfg)
    (hp : (c.get t).pc = Pc.print) :
    step net t c =
      { c with w := (c.w.enter t).Write (failLine (c.get t).n) }.set t
        { (c.get t) with pc := Pc.wgDone } := by
  unfold step
  simp only [hp]

theorem step_wgDone (net : List Char → Reply) (t : Bool) (c : Cfg)
    (hp : (c.get t).pc = Pc.wgDone) :
    step net t c =
      { c with finished := c.finished ++ [t] }.set t { (c.get t) with pc := Pc.done } := by
  unfold step
  simp only [hp]

theorem step_done (net : List Char → Reply) (t : Bool) (c : Cfg)
    (hp : (c.get t).pc = Pc.done) : step net t c = c := by
  unfold step
  simp only [hp]

/-! ### The parts of the invariant are kept by every statement -/

theorem step_invPc (net : List Char → Reply) (i : Int) (t : Bool) (c : Cfg)
    (h : InvPc (subResult (net (subUrl (i - 1)))) (subResult (net (subUrl (i - 2)))) i c) :
    InvPc (subResult (net (subUrl (i - 1)))) (subResult (net (subUrl (i - 2)))) i
      (step net t c) := by
  generalize ho1 : subResult (net (subUrl (i - 1))) = o1 at h  ⊢
  generalize ho2 : subResult (net (subUrl (i - 2))) = o2 at h  ⊢
  unfold InvPc at *
  cases t
  · cases hp : c.g1.pc
    case call =>
      rw [step_call net false c hp]
      cases o1 <;>
      simp_all [Cfg.get, Cfg.set, Cfg.record, pcOk_at]
    case lock =>
      rw [step_lock net false c hp]
      cases hm : c.mtx <;>
      simp_all [Cfg.get, Cfg.set, Cfg.record, pcOk_at]
    case load =>
      rw [step_load net false c hp]
      simp_all [Cfg.get, Cfg.set, Cfg.record, pcOk_at]
    case store =>
      rw [step_store net false c hp]
      simp_all [Cfg.get, Cfg.set, Cfg.record, pcOk_at]
    case unlock =>
      rw [step_unlock net false c hp]
      simp_all [Cfg.get, Cfg.set, Cfg.record, pcOk_at]
    case check =>
      rw [step_check net false c hp]
      cases hf : c.failed <;>
      simp_all [Cfg.get, Cfg.set, Cfg.record, pcOk_at]
    case header =>
      rw [step_header net false c hp]
      simp_all [Cfg.get, Cfg.set, Cfg.record, pcOk_at]
    case setFailed =>
      rw [step_setFailed net false c hp]
      simp_all [Cfg.get, Cfg.set, Cfg.record, pcOk_at]
    case print =>
      rw [step_print net false c hp]
      simp_all [Cfg.get, Cfg.set, Cfg.record, pcOk_at]
    case wgDone =>
      rw [step_wgDone net false c hp]
      simp_all [Cfg.get, Cfg.set, Cfg.record, pcOk_at]
    case done =>
      rw [step_done net false c hp]
      simp_all [Cfg.get, Cfg.set, Cfg.record, pcOk_at]
  · cases hp : c.g2.pc
    case call =>
      rw [step_call net true c hp]
      cases o2 <;>
      simp_all [Cfg.get, Cfg.set, Cfg.record, pcOk_at]
    case lock =>
      rw [step_lock net true c hp]
      cases hm : c.mtx <;>
      simp_all [Cfg.get, Cfg.set, Cfg.record, pcOk_at]
    case load =>
      rw [step_load net true c hp]
      simp_all [Cfg.get, Cfg.set, Cfg.record, pcOk_at]
    case store =>
      rw [step_store net true c hp]
      simp_all [Cfg.get, Cfg.set, Cfg.record, pcOk_at]
    case unlock =>
      rw [step_unlock net true c hp]
      simp_all [Cfg.get, Cfg.set, Cfg.record, pcOk_at]
    case check =>
      rw [step_check net true c hp]
      cases hf : c.failed <;>
      simp_all [Cfg.get, Cfg.set, Cfg.record, pcOk_at]
    case header =>
      rw [step_header net true c hp]
      simp_all [Cfg.get, Cfg.set, Cfg.record, pcOk_at]
    case setFailed =>
      rw [step_setFailed net true c hp]
      simp_all [Cfg.get, Cfg.set, Cfg.record, pcOk_at]
    case print =>
      rw [step_print net true c hp]
      simp_all [Cfg.get, Cfg.set, Cfg.record, pcOk_at]
    case wgDone =>
      rw [step_wgDone net true c hp]
      simp_all [Cfg.get, Cfg.set, Cfg.record, pcOk_at]
    case done =>
      rw [step_done net true c hp]
      simp_all [Cfg.get, Cfg.set, Cfg.record, pcOk_at]

theorem step_invMtx (net : List Char → Reply) (i : Int) (t : Bool) (c : Cfg)
    (hInvPc : InvPc (subResult (net (subUrl (i - 1)))) (subResult (net (subUrl (i - 2)))) i c)
    (h : InvMtx (subResult (net (subUrl (i - 1)))) (subResult (net (subUrl (i - 2)))) i c) :
    InvMtx (subResult (net (subUrl (i - 1)))) (subResult (net (subUrl (i - 2)))) i
      (step net t c) := by
  generalize ho1 : subResult (net (subUrl (i - 1))) = o1 at h hInvPc ⊢
  generalize ho2 : subResult (net (subUrl (i - 2))) = o2 at h hInvPc ⊢
  unfold InvMtx InvPc at *
  cases t
  · cases hp : c.g1.pc
    case call =>
      rw [step_call net false c hp]
      cases o1 <;>
      simp_all [Cfg.get, Cfg.set, Cfg.record, pcOk_at, crit_at]
    case lock =>
      rw [step_lock net false c hp]
      cases hc : c.g2.pc.crit <;>
      simp_all [Cfg.get, Cfg.set, Cfg.record, pcOk_at, crit_at]
    case load =>
      rw [step_load net false c hp]
      simp_all [Cfg.get, Cfg.set, Cfg.record, pcOk_at, crit_at]
    case store =>
      rw [step_store net false c hp]
      simp_all [Cfg.get, Cfg.set, Cfg.record, pcOk_at, crit_at]
    case unlock =>
      rw [step_unlock net false c hp]
      simp_all [Cfg.get, Cfg.set, Cfg.record, pcOk_at, crit_at]
    case check =>
      rw [step_check net false c hp]
      cases hf : c.failed <;>
      simp_all [Cfg.get, Cfg.set, Cfg.record, pcOk_at, crit_at]
    case header =>
      rw [step_header net false c hp]
      simp_all [Cfg.get, Cfg.set, Cfg.record, pcOk_at, crit_at]
    case setFailed =>
      rw [step_setFailed net false c hp]
      simp_all [Cfg.get, Cfg.set, Cfg.record, pcOk_at, crit_at]
    case print =>
      rw [step_print net false c hp]
      simp_all [Cfg.get, Cfg.set, Cfg.record, pcOk_at, crit_at]
    case wgDone =>
      rw [step_wgDone net false c hp]
      simp_all [Cfg.get, Cfg.set, Cfg.record, pcOk_at, crit_at]
    case done =>
      rw [step_done net false c hp]
      simp_all [Cfg.get, Cfg.set, Cfg.record, pcOk_at, crit_at]
  · cases hp : c.g2.pc
    case call =>
      rw [step_call net true c hp]
      cases o2 <;>
      simp_all [Cfg.get, Cfg.set, Cfg.record, pcOk_at, crit_at]
    case lock =>
      rw [step_lock net true c hp]
      cases hc : c.g1.pc.crit <;>
      simp_all [Cfg.get, Cfg.set, Cfg.record, pcOk_at, crit_at]
    case load =>
      rw [step_load net true c hp]
      simp_all [Cfg.get, Cfg.set, Cfg.record, pcOk_at, crit_at]
    case store =>
      rw [step_store net true c hp]
      simp_all [Cfg.get, Cfg.set, Cfg.record, pcOk_at, crit_at]
    case unlock =>
      rw [step_unlock net true c hp]
      simp_all [Cfg.get, Cfg.set, Cfg.record, pcOk_at, crit_at]
    case check =>
      rw [step_check net true c hp]
      cases hf : c.failed <;>
      simp_all [Cfg.get, Cfg.set, Cfg.record, pcOk_at, crit_at]
    case header =>
      rw [step_header net true c hp]
      simp_all [Cfg.get, Cfg.set, Cfg.record, pcOk_at, crit_at]
    case setFailed =>
      rw [step_setFailed net true c hp]
      simp_all [Cfg.get, Cfg.set, Cfg.record, pcOk_at, crit_at]
    case print =>
      rw [step_print net true c hp]
      simp_all [Cfg.get, Cfg.set, Cfg.record, pcOk_at, crit_at]
    case wgDone =>
      rw [step_wgDone net true c hp]
      simp_all [Cfg.get, Cfg.set, Cfg.record, pcOk_at, crit_at]
    case done =>
      rw [step_done net true c hp]
      simp_all [Cfg.get, Cfg.set, Cfg.record, pcOk_at, crit_at]

theorem step_invRet (net : List Char → Reply) (i : Int) (t : Bool) (c : Cfg)
    (hInvPc : InvPc (subResult (net (subUrl (i - 1)))) (subResult (net (subUrl (i - 2)))) i c)
    (hInvMtx : InvMtx (subResult (net (subUrl (i - 1)))) (subResult (net (subUrl (i - 2)))) i c)
    (h : InvRet (subResult (net (subUrl (i - 1)))) (subResult (net (subUrl (i - 2)))) i c) :
    InvRet (subResult (net (subUrl (i - 1)))) (subResult (net (subUrl (i - 2)))) i
      (step net t c) := by
  generalize ho1 : subResult (net (subUrl (i - 1))) = o1 at h hInvPc hInvMtx ⊢
  generalize ho2 : subResult (net (subUrl (i - 2))) = o2 at h hInvPc hInvMtx ⊢
  unfold InvRet InvPc InvMtx at *
  cases t
  · cases hp : c.g1.pc
    case call =>
      rw [step_call net false c hp]
      cases o1 <;>
      simp_all [Cfg.get, Cfg.set, Cfg.record, pcOk_at, crit_at, added_at]
    case lock =>
      rw [step_lock net false c hp]
      cases hc : c.g2.pc.crit <;>
      simp_all [Cfg.get, Cfg.set, Cfg.record, pcOk_at, crit_at, added_at]
    case load =>
      rw [step_load net false c hp]
      simp_all [Cfg.get, Cfg.set, Cfg.record, pcOk_at, crit_at, added_at]
    case store =>
      rw [step_store net false c hp]
      have hx : c.g2.pc ≠ Pc.store := by
        intro hx
        simp [hx, hp, crit_at] at hInvMtx
      simp_all [Cfg.get, Cfg.set, Cfg.record, pcOk_at, crit_at, added_at]
      unfold wrapInt
      omega
    case unlock =>
      rw [step_unlock net false c hp]
      simp_all [Cfg.get, Cfg.set, Cfg.record, pcOk_at, crit_at, added_at]
    case check =>
      rw [step_check net false c hp]
      cases hf : c.failed <;>
      simp_all [Cfg.get, Cfg.set, Cfg.record, pcOk_at, crit_at, added_at]
    case header =>
      rw [step_header net false c hp]
      simp_all [Cfg.get, Cfg.set, Cfg.record, pcOk_at, crit_at, added_at]
    case setFailed =>
      rw [step_setFailed net false c hp]
      simp_all [Cfg.get, Cfg.set, Cfg.record, pcOk_at, crit_at, added_at]
    case print =>
      rw [step_print net false c hp]
      simp_all [Cfg.get, Cfg.set, Cfg.record, pcOk_at, crit_at, added_at]
    case wgDone =>
      rw [step_wgDone net false c hp]
      simp_all [Cfg.get, Cfg.set, Cfg.record, pcOk_at, crit_at, added_at]
    case done =>
      rw [step_done net false c hp]
      simp_all [Cfg.get, Cfg.set, Cfg.record, pcOk_at, crit_at, added_at]
  · cases hp : c.g2.pc
    case call =>
      rw [step_call net true c hp]
      cases o2 <;>
      simp_all [Cfg.get, Cfg.set, Cfg.record, pcOk_at, crit_at, added_at]
    case lock =>
      rw [step_lock net true c hp]
      cases hc : c.g1.pc.crit <;>
      simp_all [Cfg.get, Cfg.set, Cfg.record, pcOk_at, crit_at, added_at]
    case load =>
      rw [step_load net true c hp]
      simp_all [Cfg.get, Cfg.set, Cfg.record, pcOk_at, crit_at, added_at]
    case store =>
      rw [step_store net true c hp]
      have hx : c.g1.pc ≠ Pc.store := by
        intro hx
        simp [hx, hp, crit_at] at hInvMtx
      simp_all [Cfg.get, Cfg.set, Cfg.record, pcOk_at, crit_at, added_at]
      unfold wrapInt
      omega
    case unlock =>
      rw [step_unlock net true c hp]
      simp_all [Cfg.get, Cfg.set, Cfg.record, pcOk_at, crit_at, added_at]
    case check =>
      rw [step_check net true c hp]
      cases hf : c.failed <;>
      simp_all [Cfg.get, Cfg.set, Cfg.record, pcOk_at, crit_at, added_at]
    case header =>
      rw [step_header net true c hp]
      simp_all [Cfg.get, Cfg.set, Cfg.record, pcOk_at, crit_at, added_at]
    case setFailed =>
      rw [step_setFailed net true c hp]
      simp_all [Cfg.get, Cfg.set, Cfg.record, pcOk_at, crit_at, added_at]
    case print =>
      rw [step_print net true c hp]
      simp_all [Cfg.get, Cfg.set, Cfg.record, pcOk_at, crit_at, added_at]
    case wgDone =>
      rw [step_wgDone net true c hp]
      simp_all [Cfg.get, Cfg.set, Cfg.record, pcOk_at, crit_at, added_at]
    case done =>
      rw [step_done net true c hp]
      simp_all [Cfg.get, Cfg.set, Cfg.record, pcOk_at, crit_at, added_at]

theorem step_invFail (net : List Char → Reply) (i : Int) (t : Bool) (c : Cfg)
    (hInvPc : InvPc (subResult (net (subUrl (i - 1)))) (subResult (net (subUrl (i - 2)))) i c)
    (h : InvFail (subResult (net (subUrl (i - 1)))) (subResult (net (subUrl (i - 2)))) i c) :
    InvFail (subResult (net (subUrl (i - 1)))) (subResult (net (subUrl (i - 2)))) i
      (step net t c) := by
  generalize ho1 : subResult (net (subUrl (i - 1))) = o1 at h hInvPc ⊢
  generalize ho2 : subResult (net (subUrl (i - 2))) = o2 at h hInvPc ⊢
  unfold InvFail InvPc at *
  cases t
  · cases hp : c.g1.pc
    case call =>
      rw [step_call net false c hp]
      cases o1 <;>
      simp_all [Cfg.get, Cfg.set, Cfg.record, pcOk_at, pastSet_at, pastHdr_at, ResponseWriter.WriteHeader, ResponseWriter.Write, ResponseWriter.enter]
    case lock =>
      rw [step_lock net false c hp]
      cases hm : c.mtx <;>
      simp_all [Cfg.get, Cfg.set, Cfg.record, pcOk_at, pastSet_at, pastHdr_at, ResponseWriter.WriteHeader, ResponseWriter.Write, ResponseWriter.enter]
    case load =>
      rw [step_load net false c hp]
      simp_all [Cfg.get, Cfg.set, Cfg.record, pcOk_at, pastSet_at, pastHdr_at, ResponseWriter.WriteHeader, ResponseWriter.Write, ResponseWriter.enter]
    case store =>
      rw [step_store net false c hp]
      simp_all [Cfg.get, Cfg.set, Cfg.record, pcOk_at, pastSet_at, pastHdr_at, ResponseWriter.WriteHeader, ResponseWriter.Write, ResponseWriter.enter]
    case unlock =>
      rw [step_unlock net false c hp]
      simp_all [Cfg.get, Cfg.set, Cfg.record, pcOk_at, pastSet_at, pastHdr_at, ResponseWriter.WriteHeader, ResponseWriter.Write, ResponseWriter.enter]
    case check =>
      rw [step_check net false c hp]
      have hle := pastSet_le_pastHdr o2 c.g2.pc
      cases hf : c.failed <;>
      simp_all [Cfg.get, Cfg.set, Cfg.record, pcOk_at, pastSet_at, pastHdr_at, ResponseWriter.WriteHeader, ResponseWriter.Write, ResponseWriter.enter]
    case header =>
      rw [step_header net false c hp]
      cases hh : pastHdr o2 c.g2.pc <;>
      simp_all [Cfg.get, Cfg.set, Cfg.record, pcOk_at, pastSet_at, pastHdr_at, ResponseWriter.WriteHeader, ResponseWriter.Write, ResponseWriter.enter]
    case setFailed =>
      rw [step_setFailed net false c hp]
      simp_all [Cfg.get, Cfg.set, Cfg.record, pcOk_at, pastSet_at, pastHdr_at, ResponseWriter.WriteHeader, ResponseWriter.Write, ResponseWriter.enter]
    case print =>
      rw [step_print net false c hp]
      cases hh : pastHdr o2 c.g2.pc <;>
      simp_all [Cfg.get, Cfg.set, Cfg.record, pcOk_at, pastSet_at, pastHdr_at, ResponseWriter.WriteHeader, ResponseWriter.Write, ResponseWriter.enter]
    case wgDone =>
      rw [step_wgDone net false c hp]
      simp_all [Cfg.get, Cfg.set, Cfg.record, pcOk_at, pastSet_at, pastHdr_at, ResponseWriter.WriteHeader, ResponseWriter.Write, ResponseWriter.enter]
    case done =>
      rw [step_done net false c hp]
      simp_all [Cfg.get, Cfg.set, Cfg.record, pcOk_at, pastSet_at, pastHdr_at, ResponseWriter.WriteHeader, ResponseWriter.Write, ResponseWriter.enter]
  · cases hp : c.g2.pc
    case call =>
      rw [step_call net true c hp]
      cases o2 <;>
      simp_all [Cfg.get, Cfg.set, Cfg.record, pcOk_at, pastSet_at, pastHdr_at, ResponseWriter.WriteHeader, ResponseWriter.Write, ResponseWriter.enter]
    case lock =>
      rw [step_lock net true c hp]
      cases hm : c.mtx <;>
      simp_all [Cfg.get, Cfg.set, Cfg.record, pcOk_at, pastSet_at, pastHdr_at, ResponseWriter.WriteHeader, ResponseWriter.Write, ResponseWriter.enter]
    case load =>
      rw [step_load net true c hp]
      simp_all [Cfg.get, Cfg.set, Cfg.record, pcOk_at, pastSet_at, pastHdr_at, ResponseWriter.WriteHeader, ResponseWriter.Write, ResponseWriter.enter]
    case store =>
      rw [step_store net true c hp]
      simp_all [Cfg.get, Cfg.set, Cfg.record, pcOk_at, pastSet_at, pastHdr_at, ResponseWriter.WriteHeader, ResponseWriter.Write, ResponseWriter.enter]
    case unlock =>
      rw [step_unlock net true c hp]
      simp_all [Cfg.get, Cfg.set, Cfg.record, pcOk_at, pastSet_at, pastHdr_at, ResponseWriter.WriteHeader, ResponseWriter.Write, ResponseWriter.enter]
    case check =>
      rw [step_check net true c hp]
      have hle := pastSet_le_pastHdr o1 c.g1.pc
      cases hf : c.failed <;>
      simp_all [Cfg.get, Cfg.set, Cfg.record, pcOk_at, pastSet_at, pastHdr_at, ResponseWriter.WriteHeader, ResponseWriter.Write, ResponseWriter.enter]
    case header =>
      rw [step_header net true c hp]
      cases hh : pastHdr o1 c.g1.pc <;>
      simp_all [Cfg.get, Cfg.set, Cfg.record, pcOk_at, pastSet_at, pastHdr_at, ResponseWriter.WriteHeader, ResponseWriter.Write, ResponseWriter.enter]
    case setFailed =>
      rw [step_setFailed net true c hp]
      simp_all [Cfg.get, Cfg.set, Cfg.record, pcOk_at, pastSet_at, pastHdr_at, ResponseWriter.WriteHeader, ResponseWriter.Write, ResponseWriter.enter]
    case print =>
      rw [step_print net true c hp]
      cases hh : pastHdr o1 c.g1.pc <;>
      simp_all [Cfg.get, Cfg.set, Cfg.record, pcOk_at, pastSet_at, pastHdr_at, ResponseWriter.WriteHeader, ResponseWriter.Write, ResponseWriter.enter]
    case wgDone =>
      rw [step_wgDone net true c hp]
      simp_all [Cfg.get, Cfg.set, Cfg.record, pcOk_at, pastSet_at, pastHdr_at, ResponseWriter.WriteHeader, ResponseWriter.Write, ResponseWriter.enter]
    case done =>
      rw [step_done net true c hp]
      simp_all [Cfg.get, Cfg.set, Cfg.record, pcOk_at, pastSet_at, pastHdr_at, ResponseWriter.WriteHeader, ResponseWriter.Write, ResponseWriter.enter]

theorem step_invBody (net : List Char → Reply) (i : Int) (t : Bool) (c : Cfg)
    (hInvPc : InvPc (subResult (net (subUrl (i - 1)))) (subResult (net (subUrl (i - 2)))) i c)
    (h : InvBody (subResult (net (subUrl (i - 1)))) (subResult (net (subUrl (i - 2)))) i c) :
    InvBody (subResult (net (subUrl (i - 1)))) (subResult (net (subUrl (i - 2)))) i
      (step net t c) := by
  generalize ho1 : subResult (net (subUrl (i - 1))) = o1 at h hInvPc ⊢
  generalize ho2 : subResult (net (subUrl (i - 2))) = o2 at h hInvPc ⊢
  unfold InvBody InvPc at *
  cases t
  · cases hp : c.g1.pc
    case call =>
      rw [step_call net false c hp]
      cases o1 <;>
      simp_all [Cfg.get, Cfg.set, Cfg.record, pcOk_at, written_at, ResponseWriter.WriteHeader, ResponseWriter.Write, ResponseWriter.enter]
    case lock =>
      rw [step_lock net false c hp]
      cases hm : c.mtx <;>
      simp_all [Cfg.get, Cfg.set, Cfg.record, pcOk_at, written_at, ResponseWriter.WriteHeader, ResponseWriter.Write, ResponseWriter.enter]
    case load =>
      rw [step_load net false c hp]
      simp_all [Cfg.get, Cfg.set, Cfg.record, pcOk_at, written_at, ResponseWriter.WriteHeader, ResponseWriter.Write, ResponseWriter.enter]
    case store =>
      rw [step_store net false c hp]
      simp_all [Cfg.get, Cfg.set, Cfg.record, pcOk_at, written_at, ResponseWriter.WriteHeader, ResponseWriter.Write, ResponseWriter.enter]
    case unlock =>
      rw [step_unlock net false c hp]
      simp_all [Cfg.get, Cfg.set, Cfg.record, pcOk_at, written_at, ResponseWriter.WriteHeader, ResponseWriter.Write, ResponseWriter.enter]
    case check =>
      rw [step_check net false c hp]
      cases hf : c.failed <;>
      simp_all [Cfg.get, Cfg.set, Cfg.record, pcOk_at, written_at, ResponseWriter.WriteHeader, ResponseWriter.Write, ResponseWriter.enter]
    case header =>
      rw [step_header net false c hp]
      simp_all [Cfg.get, Cfg.set, Cfg.record, pcOk_at, written_at, ResponseWriter.WriteHeader, ResponseWriter.Write, ResponseWriter.enter]
    case setFailed =>
      rw [step_setFailed net false c hp]
      simp_all [Cfg.get, Cfg.set, Cfg.record, pcOk_at, written_at, ResponseWriter.WriteHeader, ResponseWriter.Write, ResponseWriter.enter]
    case print =>
      rw [step_print net false c hp]
      simp_all [Cfg.get, Cfg.set, Cfg.record, pcOk_at, written_at, ResponseWriter.WriteHeader, ResponseWriter.Write, ResponseWriter.enter]
    case wgDone =>
      rw [step_wgDone net false c hp]
      simp_all [Cfg.get, Cfg.set, Cfg.record, pcOk_at, written_at, ResponseWriter.WriteHeader, ResponseWriter.Write, ResponseWriter.enter]
    case done =>
      rw [step_done net false c hp]
      simp_all [Cfg.get, Cfg.set, Cfg.record, pcOk_at, written_at, ResponseWriter.WriteHeader, ResponseWriter.Write, ResponseWriter.enter]
  · cases hp : c.g2.pc
    case call =>
      rw [step_call net true c hp]
      cases o2 <;>
      simp_all [Cfg.get, Cfg.set, Cfg.record, pcOk_at, written_at, ResponseWriter.WriteHeader, ResponseWriter.Write, ResponseWriter.enter]
    case lock =>
      rw [step_lock net true c hp]
      cases hm : c.mtx <;>
      simp_all [Cfg.get, Cfg.set, Cfg.record, pcOk_at, written_at, ResponseWriter.WriteHeader, ResponseWriter.Write, ResponseWriter.enter]
    case load =>
      rw [step_load net true c hp]
      simp_all [Cfg.get, Cfg.set, Cfg.record, pcOk_at, written_at, ResponseWriter.WriteHeader, ResponseWriter.Write, ResponseWriter.enter]
    case store =>
      rw [step_store net true c hp]
      simp_all [Cfg.get, Cfg.set, Cfg.record, pcOk_at, written_at, ResponseWriter.WriteHeader, ResponseWriter.Write, ResponseWriter.enter]
    case unlock =>
      rw [step_unlock net true c hp]
      simp_all [Cfg.get, Cfg.set, Cfg.record, pcOk_at, written_at, ResponseWriter.WriteHeader, ResponseWriter.Write, ResponseWriter.enter]
    case check =>
      rw [step_check net true c hp]
      cases hf : c.failed <;>
      simp_all [Cfg.get, Cfg.set, Cfg.record, pcOk_at, written_at, ResponseWriter.WriteHeader, ResponseWriter.Write, ResponseWriter.enter]
    case header =>
      rw [step_header net true c hp]
      simp_all [Cfg.get, Cfg.set, Cfg.record, pcOk_at, written_at, ResponseWriter.WriteHeader, ResponseWriter.Write, ResponseWriter.enter]
    case setFailed =>
      rw [step_setFailed net true c hp]
      simp_all [Cfg.get, Cfg.set, Cfg.record, pcOk_at, written_at, ResponseWriter.WriteHeader, ResponseWriter.Write, ResponseWriter.enter]
    case print =>
      rw [step_print net true c hp]
      simp_all [Cfg.get, Cfg.set, Cfg.record, pcOk_at, written_at, ResponseWriter.WriteHeader, ResponseWriter.Write, ResponseWriter.enter]
    case wgDone =>
      rw [step_wgDone net true c hp]
      simp_all [Cfg.get, Cfg.set, Cfg.record, pcOk_at, written_at, ResponseWriter.WriteHeader, ResponseWriter.Write, ResponseWriter.enter]
    case done =>
      rw [step_done net true c hp]
      simp_all [Cfg.get, Cfg.set, Cfg.record, pcOk_at, written_at, ResponseWriter.WriteHeader, ResponseWriter.Write, ResponseWriter.enter]

theorem step_invRace (net : List Char → Reply) (i : Int) (t : Bool) (c : Cfg)
    (hInvPc : InvPc (subResult (net (subUrl (i - 1)))) (subResult (net (subUrl (i - 2)))) i c)
    (h : InvRace (subResult (net (subUrl (i - 1)))) (subResult (net (subUrl (i - 2)))) i c) :
    InvRace (subResult (net (subUrl (i - 1)))) (subResult (net (subUrl (i - 2)))) i
      (step net t c) := by
  generalize ho1 : subResult (net (subUrl (i - 1))) = o1 at h hInvPc ⊢
  generalize ho2 : subResult (net (subUrl (i - 2))) = o2 at h hInvPc ⊢
  unfold InvRace InvPc at *
  cases t
  · cases hp : c.g1.pc
    case call =>
      rw [step_call net false c hp]
      cases o1 <;>
      simp_all [Cfg.get, Cfg.set, Cfg.record, pcOk_at, ResponseWriter.WriteHeader, ResponseWriter.Write, ResponseWriter.enter]
    case lock =>
      rw [step_lock net false c hp]
      cases hm : c.mtx <;>
      simp_all [Cfg.get, Cfg.set, Cfg.record, pcOk_at, ResponseWriter.WriteHeader, ResponseWriter.Write, ResponseWriter.enter]
    case load =>
      rw [step_load net false c hp]
      simp_all [Cfg.get, Cfg.set, Cfg.record, pcOk_at, ResponseWriter.WriteHeader, ResponseWriter.Write, ResponseWriter.enter]
    case store =>
      rw [step_store net false c hp]
      simp_all [Cfg.get, Cfg.set, Cfg.record, pcOk_at, ResponseWriter.WriteHeader, ResponseWriter.Write, ResponseWriter.enter]
    case unlock =>
      rw [step_unlock net false c hp]
      simp_all [Cfg.get, Cfg.set, Cfg.record, pcOk_at, ResponseWriter.WriteHeader, ResponseWriter.Write, ResponseWriter.enter]
    case check =>
      rw [step_check net false c hp]
      cases hf : c.failed <;>
      simp_all [Cfg.get, Cfg.set, Cfg.record, pcOk_at, ResponseWriter.WriteHeader, ResponseWriter.Write, ResponseWriter.enter]
    case header =>
      rw [step_header net false c hp]
      cases hu : c.w.user <;> cases hr : c.w.raced <;>
      simp_all [Cfg.get, Cfg.set, Cfg.record, pcOk_at, ResponseWriter.WriteHeader, ResponseWriter.Write, ResponseWriter.enter]
    case setFailed =>
      rw [step_setFailed net false c hp]
      simp_all [Cfg.get, Cfg.set, Cfg.record, pcOk_at, ResponseWriter.WriteHeader, ResponseWriter.Write, ResponseWriter.enter]
    case print =>
      rw [step_print net false c hp]
      cases hu : c.w.user <;> cases hr : c.w.raced <;>
      simp_all [Cfg.get, Cfg.set, Cfg.record, pcOk_at, ResponseWriter.WriteHeader, ResponseWriter.Write, ResponseWriter.enter]
    case wgDone =>
      rw [step_wgDone net false c hp]
      simp_all [Cfg.get, Cfg.set, Cfg.record, pcOk_at, ResponseWriter.WriteHeader, ResponseWriter.Write, ResponseWriter.enter]
    case done =>
      rw [step_done net false c hp]
      simp_all [Cfg.get, Cfg.set, Cfg.record, pcOk_at, ResponseWriter.WriteHeader, ResponseWriter.Write, ResponseWriter.enter]
  · cases hp : c.g2.pc
    case call =>
      rw [step_call net true c hp]
      cases o2 <;>
      simp_all [Cfg.get, Cfg.set, Cfg.record, pcOk_at, ResponseWriter.WriteHeader, ResponseWriter.Write, ResponseWriter.enter]
    case lock =>
      rw [step_lock net true c hp]
      cases hm : c.mtx <;>
      simp_all [Cfg.get, Cfg.set, Cfg.record, pcOk_at, ResponseWriter.WriteHeader, ResponseWriter.Write, ResponseWriter.enter]
    case load =>
      rw [step_load net true c hp]
      simp_all [Cfg.get, Cfg.set, Cfg.record, pcOk_at, ResponseWriter.WriteHeader, ResponseWriter.Write, ResponseWriter.enter]
    case store =>
      rw [step_store net true c hp]
      simp_all [Cfg.get, Cfg.set, Cfg.record, pcOk_at, ResponseWriter.WriteHeader, ResponseWriter.Write, ResponseWriter.enter]
    case unlock =>
      rw [step_unlock net true c hp]
      simp_all [Cfg.get, Cfg.set, Cfg.record, pcOk_at, ResponseWriter.WriteHeader, ResponseWriter.Write, ResponseWriter.enter]
    case check =>
      rw [step_check net true c hp]
      cases hf : c.failed <;>
      simp_all [Cfg.get, Cfg.set, Cfg.record, pcOk_at, ResponseWriter.WriteHeader, ResponseWriter.Write, ResponseWriter.enter]
    case header =>
      rw [step_header net true c hp]
      cases hu : c.w.user <;> cases hr : c.w.raced <;>
      simp_all [Cfg.get, Cfg.set, Cfg.record, pcOk_at, ResponseWriter.WriteHeader, ResponseWriter.Write, ResponseWriter.enter]
    case setFailed =>
      rw [step_setFailed net true c hp]
      simp_all [Cfg.get, Cfg.set, Cfg.record, pcOk_at, ResponseWriter.WriteHeader, ResponseWriter.Write, ResponseWriter.enter]
    case print =>
      rw [step_print net true c hp]
      cases hu : c.w.user <;> cases hr : c.w.raced <;>
      simp_all [Cfg.get, Cfg.set, Cfg.record, pcOk_at, ResponseWriter.WriteHeader, ResponseWriter.Write, ResponseWriter.enter]
    case wgDone =>
      rw [step_wgDone net true c hp]
      simp_all [Cfg.get, Cfg.set, Cfg.record, pcOk_at, ResponseWriter.WriteHeader, ResponseWriter.Write, ResponseWriter.enter]
    case done =>
      rw [step_done net true c hp]
      simp_all [Cfg.get, Cfg.set, Cfg.record, pcOk_at, ResponseWriter.WriteHeader, ResponseWriter.Write, ResponseWriter.enter]

theorem step_invEnter (net : List Char → Reply) (i : Int) (t : Bool) (c : Cfg)
    (hInvPc : InvPc (subResult (net (subUrl (i - 1)))) (subResult (net (subUrl (i - 2)))) i c)
    (h : InvEnter (subResult (net (subUrl (i - 1)))) (subResult (net (subUrl (i - 2)))) i c) :
    InvEnter (subResult (net (subUrl (i - 1)))) (subResult (net (subUrl (i - 2)))) i
      (step net t c) := by
  generalize ho1 : subResult (net (subUrl (i - 1))) = o1 at h hInvPc ⊢
  generalize ho2 : subResult (net (subUrl (i - 2))) = o2 at h hInvPc ⊢
  unfold InvEnter InvPc at *
  cases t
  · cases hp : c.g1.pc
    case call =>
      rw [step_call net false c hp]
      cases o1 <;>
      simp_all [Cfg.get, Cfg.set, Cfg.record, pcOk_at, pastPrint_at, ResponseWriter.WriteHeader, ResponseWriter.Write, ResponseWriter.enter]
    case lock =>
      rw [step_lock net false c hp]
      cases hm : c.mtx <;>
      simp_all [Cfg.get, Cfg.set, Cfg.record, pcOk_at, pastPrint_at, ResponseWriter.WriteHeader, ResponseWriter.Write, ResponseWriter.enter]
    case load =>
      rw [step_load net false c hp]
      simp_all [Cfg.get, Cfg.set, Cfg.record, pcOk_at, pastPrint_at, ResponseWriter.WriteHeader, ResponseWriter.Write, ResponseWriter.enter]
    case store =>
      rw [step_store net false c hp]
      simp_all [Cfg.get, Cfg.set, Cfg.record, pcOk_at, pastPrint_at, ResponseWriter.WriteHeader, ResponseWriter.Write, ResponseWriter.enter]
    case unlock =>
      rw [step_unlock net false c hp]
      simp_all [Cfg.get, Cfg.set, Cfg.record, pcOk_at, pastPrint_at, ResponseWriter.WriteHeader, ResponseWriter.Write, ResponseWriter.enter]
    case check =>
      rw [step_check net false c hp]
      cases hf : c.failed <;>
      simp_all [Cfg.get, Cfg.set, Cfg.record, pcOk_at, pastPrint_at, ResponseWriter.WriteHeader, ResponseWriter.Write, ResponseWriter.enter]
    case header =>
      rw [step_header net false c hp]
      cases hu : c.w.user <;> cases hr : c.w.raced <;>
      simp_all [Cfg.get, Cfg.set, Cfg.record, pcOk_at, pastPrint_at, ResponseWriter.WriteHeader, ResponseWriter.Write, ResponseWriter.enter]
    case setFailed =>
      rw [step_setFailed net false c hp]
      simp_all [Cfg.get, Cfg.set, Cfg.record, pcOk_at, pastPrint_at, ResponseWriter.WriteHeader, ResponseWriter.Write, ResponseWriter.enter]
    case print =>
      rw [step_print net false c hp]
      cases hu : c.w.user <;> cases hr : c.w.raced <;>
      simp_all [Cfg.get, Cfg.set, Cfg.record, pcOk_at, pastPrint_at, ResponseWriter.WriteHeader, ResponseWriter.Write, ResponseWriter.enter]
    case wgDone =>
      rw [step_wgDone net false c hp]
      simp_all [Cfg.get, Cfg.set, Cfg.record, pcOk_at, pastPrint_at, ResponseWriter.WriteHeader, ResponseWriter.Write, ResponseWriter.enter]
    case done =>
      rw [step_done net false c hp]
      simp_all [Cfg.get, Cfg.set, Cfg.record, pcOk_at, pastPrint_at, ResponseWriter.WriteHeader, ResponseWriter.Write, ResponseWriter.enter]
  · cases hp : c.g2.pc
    case call =>
      rw [step_call net true c hp]
      cases o2 <;>
      simp_all [Cfg.get, Cfg.set, Cfg.record, pcOk_at, pastPrint_at, ResponseWriter.WriteHeader, ResponseWriter.Write, ResponseWriter.enter]
    case lock =>
      rw [step_lock net true c hp]
      cases hm : c.mtx <;>
      simp_all [Cfg.get, Cfg.set, Cfg.record, pcOk_at, pastPrint_at, ResponseWriter.WriteHeader, ResponseWriter.Write, ResponseWriter.enter]
    case load =>
      rw [step_load net true c hp]
      simp_all [Cfg.get, Cfg.set, Cfg.record, pcOk_at, pastPrint_at, ResponseWriter.WriteHeader, ResponseWriter.Write, ResponseWriter.enter]
    case store =>
      rw [step_store net true c hp]
      simp_all [Cfg.get, Cfg.set, Cfg.record, pcOk_at, pastPrint_at, ResponseWriter.WriteHeader, ResponseWriter.Write, ResponseWriter.enter]
    case unlock =>
      rw [step_unlock net true c hp]
      simp_all [Cfg.get, Cfg.set, Cfg.record, pcOk_at, pastPrint_at, ResponseWriter.WriteHeader, ResponseWriter.Write, ResponseWriter.enter]
    case check =>
      rw [step_check net true c hp]
      cases hf : c.failed <;>
      simp_all [Cfg.get, Cfg.set, Cfg.record, pcOk_at, pastPrint_at, ResponseWriter.WriteHeader, ResponseWriter.Write, ResponseWriter.enter]
    case header =>
      rw [step_header net true c hp]
      cases hu : c.w.user <;> cases hr : c.w.raced <;>
      simp_all [Cfg.get, Cfg.set, Cfg.record, pcOk_at, pastPrint_at, ResponseWriter.WriteHeader, ResponseWriter.Write, ResponseWriter.enter]
    case setFailed =>
      rw [step_setFailed net true c hp]
      simp_all [Cfg.get, Cfg.set, Cfg.record, pcOk_at, pastPrint_at, ResponseWriter.WriteHeader, ResponseWriter.Write, ResponseWriter.enter]
    case print =>
      rw [step_print net true c hp]
      cases hu : c.w.user <;> cases hr : c.w.raced <;>
      simp_all [Cfg.get, Cfg.set, Cfg.record, pcOk_at, pastPrint_at, ResponseWriter.WriteHeader, ResponseWriter.Write, ResponseWriter.enter]
    case wgDone =>
      rw [step_wgDone net true c hp]
      simp_all [Cfg.get, Cfg.set, Cfg.record, pcOk_at, pastPrint_at, ResponseWriter.WriteHeader, ResponseWriter.Write, ResponseWriter.enter]
    case done =>
      rw [step_done net true c hp]
      simp_all [Cfg.get, Cfg.set, Cfg.record, pcOk_at, pastPrint_at, ResponseWriter.WriteHeader, ResponseWriter.Write, ResponseWriter.enter]

theorem step_invFin (net : List Char → Reply) (i : Int) (t : Bool) (c : Cfg)
    (hInvPc : InvPc (subResult (net (subUrl (i - 1)))) (subResult (net (subUrl (i - 2)))) i c)
    (h : InvFin (subResult (net (subUrl (i - 1)))) (subResult (net (subUrl (i - 2)))) i c) :
    InvFin (subResult (net (subUrl (i - 1)))) (subResult (net (subUrl (i - 2)))) i
      (step net t c) := by
  generalize ho1 : subResult (net (subUrl (i - 1))) = o1 at h hInvPc ⊢
  generalize ho2 : subResult (net (subUrl (i - 2))) = o2 at h hInvPc ⊢
  unfold InvFin InvPc at *
  cases t
  · cases hp : c.g1.pc
    case call =>
      rw [step_call net false c hp]
      cases hd : c.g2.pc.isDone <;> cases o1 <;>
      simp_all [Cfg.get, Cfg.set, Cfg.record, pcOk_at, isDone_at, orderOk]
    case lock =>
      rw [step_lock net false c hp]
      cases hd : c.g2.pc.isDone <;> cases hm : c.mtx <;>
      simp_all [Cfg.get, Cfg.set, Cfg.record, pcOk_at, isDone_at, orderOk]
    case load =>
      rw [step_load net false c hp]
      cases hd : c.g2.pc.isDone <;> simp_all [Cfg.get, Cfg.set, Cfg.record, pcOk_at, isDone_at, orderOk]
    case store =>
      rw [step_store net false c hp]
      cases hd : c.g2.pc.isDone <;> simp_all [Cfg.get, Cfg.set, Cfg.record, pcOk_at, isDone_at, orderOk]
    case unlock =>
      rw [step_unlock net false c hp]
      cases hd : c.g2.pc.isDone <;> simp_all [Cfg.get, Cfg.set, Cfg.record, pcOk_at, isDone_at, orderOk]
    case check =>
      rw [step_check net false c hp]
      cases hd : c.g2.pc.isDone <;> cases hf : c.failed <;>
      simp_all [Cfg.get, Cfg.set, Cfg.record, pcOk_at, isDone_at, orderOk]
    case header =>
      rw [step_header net false c hp]
      cases hd : c.g2.pc.isDone <;> simp_all [Cfg.get, Cfg.set, Cfg.record, pcOk_at, isDone_at, orderOk]
    case setFailed =>
      rw [step_setFailed net false c hp]
      cases hd : c.g2.pc.isDone <;> simp_all [Cfg.get, Cfg.set, Cfg.record, pcOk_at, isDone_at, orderOk]
    case print =>
      rw [step_print net false c hp]
      cases hd : c.g2.pc.isDone <;> simp_all [Cfg.get, Cfg.set, Cfg.record, pcOk_at, isDone_at, orderOk]
    case wgDone =>
      rw [step_wgDone net false c hp]
      cases hd : c.g2.pc.isDone <;> simp_all [Cfg.get, Cfg.set, Cfg.record, pcOk_at, isDone_at, orderOk]
    case done =>
      rw [step_done net false c hp]
      cases hd : c.g2.pc.isDone <;> simp_all [Cfg.get, Cfg.set, Cfg.record, pcOk_at, isDone_at, orderOk]
  · cases hp : c.g2.pc
    case call =>
      rw [step_call net true c hp]
      cases hd : c.g1.pc.isDone <;> cases o2 <;>
      simp_all [Cfg.get, Cfg.set, Cfg.record, pcOk_at, isDone_at, orderOk]
    case lock =>
      rw [step_lock net true c hp]
      cases hd : c.g1.pc.isDone <;> cases hm : c.mtx <;>
      simp_all [Cfg.get, Cfg.set, Cfg.record, pcOk_at, isDone_at, orderOk]
    case load =>
      rw [step_load net true c hp]
      cases hd : c.g1.pc.isDone <;> simp_all [Cfg.get, Cfg.set, Cfg.record, pcOk_at, isDone_at, orderOk]
    case store =>
      rw [step_store net true c hp]
      cases hd : c.g1.pc.isDone <;> simp_all [Cfg.get, Cfg.set, Cfg.record, pcOk_at, isDone_at, orderOk]
    case unlock =>
      rw [step_unlock net true c hp]
      cases hd : c.g1.pc.isDone <;> simp_all [Cfg.get, Cfg.set, Cfg.record, pcOk_at, isDone_at, orderOk]
    case check =>
      rw [step_check net true c hp]
      cases hd : c.g1.pc.isDone <;> cases hf : c.failed <;>
      simp_all [Cfg.get, Cfg.set, Cfg.record, pcOk_at, isDone_at, orderOk]
    case header =>
      rw [step_header net true c hp]
      cases hd : c.g1.pc.isDone <;> simp_all [Cfg.get, Cfg.set, Cfg.record, pcOk_at, isDone_at, orderOk]
    case setFailed =>
      rw [step_setFailed net true c hp]
      cases hd : c.g1.pc.isDone <;> simp_all [Cfg.get, Cfg.set, Cfg.record, pcOk_at, isDone_at, orderOk]
    case print =>
      rw [step_print net true c hp]
      cases hd : c.g1.pc.isDone <;> simp_all [Cfg.get, Cfg.set, Cfg.record, pcOk_at, isDone_at, orderOk]
    case wgDone =>
      rw [step_wgDone net true c hp]
      cases hd : c.g1.pc.isDone <;> simp_all [Cfg.get, Cfg.set, Cfg.record, pcOk_at, isDone_at, orderOk]
    case done =>
      rw [step_done net true c hp]
      cases hd : c.g1.pc.isDone <;> simp_all [Cfg.get, Cfg.set, Cfg.record, pcOk_at, isDone_at, orderOk]

theorem step_invCalls (net : List Char → Reply) (i : Int) (t : Bool) (c : Cfg)
    (hInvPc : InvPc (subResult (net (subUrl (i - 1)))) (subResult (net (subUrl (i - 2)))) i c)
    (h : InvCalls (subResult (net (subUrl (i - 1)))) (subResult (net (subUrl (i - 2)))) i c) :
    InvCalls (subResult (net (subUrl (i - 1)))) (subResult (net (subUrl (i - 2)))) i
      (step net t c) := by
  generalize ho1 : subResult (net (subUrl (i - 1))) = o1 at h hInvPc ⊢
  generalize ho2 : subResult (net (subUrl (i - 2))) = o2 at h hInvPc ⊢
  unfold InvCalls InvPc at *
  cases t
  · cases hp : c.g1.pc
    case call =>
      rw [step_call net false c hp]
      cases hd : c.g2.pc.called <;> cases o1 <;>
      simp_all [Cfg.get, Cfg.set, Cfg.record, pcOk_at, called_at, orderOk]
    case lock =>
      rw [step_lock net false c hp]
      cases hd : c.g2.pc.called <;> cases hm : c.mtx <;>
      simp_all [Cfg.get, Cfg.set, Cfg.record, pcOk_at, called_at, orderOk]
    case load =>
      rw [step_load net false c hp]
      cases hd : c.g2.pc.called <;> simp_all [Cfg.get, Cfg.set, Cfg.record, pcOk_at, called_at, orderOk]
    case store =>
      rw [step_store net false c hp]
      cases hd : c.g2.pc.called <;> simp_all [Cfg.get, Cfg.set, Cfg.record, pcOk_at, called_at, orderOk]
    case unlock =>
      rw [step_unlock net false c hp]
      cases hd : c.g2.pc.called <;> simp_all [Cfg.get, Cfg.set, Cfg.record, pcOk_at, called_at, orderOk]
    case check =>
      rw [step_check net false c hp]
      cases hd : c.g2.pc.called <;> cases hf : c.failed <;>
      simp_all [Cfg.get, Cfg.set, Cfg.record, pcOk_at, called_at, orderOk]
    case header =>
      rw [step_header net false c hp]
      cases hd : c.g2.pc.called <;> simp_all [Cfg.get, Cfg.set, Cfg.record, pcOk_at, called_at, orderOk]
    case setFailed =>
      rw [step_setFailed net false c hp]
      cases hd : c.g2.pc.called <;> simp_all [Cfg.get, Cfg.set, Cfg.record, pcOk_at, called_at, orderOk]
    case print =>
      rw [step_print net false c hp]
      cases hd : c.g2.pc.called <;> simp_all [Cfg.get, Cfg.set, Cfg.record, pcOk_at, called_at, orderOk]
    case wgDone =>
      rw [step_wgDone net false c hp]
      cases hd : c.g2.pc.called <;> simp_all [Cfg.get, Cfg.set, Cfg.record, pcOk_at, called_at, orderOk]
    case done =>
      rw [step_done net false c hp]
      cases hd : c.g2.pc.called <;> simp_all [Cfg.get, Cfg.set, Cfg.record, pcOk_at, called_at, orderOk]
  · cases hp : c.g2.pc
    case call =>
      rw [step_call net true c hp]
      cases hd : c.g1.pc.called <;> cases o2 <;>
      simp_all [Cfg.get, Cfg.set, Cfg.record, pcOk_at, called_at, orderOk]
    case lock =>
      rw [step_lock net true c hp]
      cases hd : c.g1.pc.called <;> cases hm : c.mtx <;>
      simp_all [Cfg.get, Cfg.set, Cfg.record, pcOk_at, called_at, orderOk]
    case load =>
      rw [step_load net true c hp]
      cases hd : c.g1.pc.called <;> simp_all [Cfg.get, Cfg.set, Cfg.record, pcOk_at, called_at, orderOk]
    case store =>
      rw [step_store net true c hp]
      cases hd : c.g1.pc.called <;> simp_all [Cfg.get, Cfg.set, Cfg.record, pcOk_at, called_at, orderOk]
    case unlock =>
      rw [step_unlock net true c hp]
      cases hd : c.g1.pc.called <;> simp_all [Cfg.get, Cfg.set, Cfg.record, pcOk_at, called_at, orderOk]
    case check =>
      rw [step_check net true c hp]
      cases hd : c.g1.pc.called <;> cases hf : c.failed <;>
      simp_all [Cfg.get, Cfg.set, Cfg.record, pcOk_at, called_at, orderOk]
    case header =>
      rw [step_header net true c hp]
      cases hd : c.g1.pc.called <;> simp_all [Cfg.get, Cfg.set, Cfg.record, pcOk_at, called_at, orderOk]
    case setFailed =>
      rw [step_setFailed net true c hp]
      cases hd : c.g1.pc.called <;> simp_all [Cfg.get, Cfg.set, Cfg.record, pcOk_at, called_at, orderOk]
    case print =>
      rw [step_print net true c hp]
      cases hd : c.g1.pc.called <;> simp_all [Cfg.get, Cfg.set, Cfg.record, pcOk_at, called_at, orderOk]
    case wgDone =>
      rw [step_wgDone net true c hp]
      cases hd : c.g1.pc.called <;> simp_all [Cfg.get, Cfg.set, Cfg.record, pcOk_at, called_at, orderOk]
    case done =>
      rw [step_done net true c hp]
      cases hd : c.g1.pc.called <;> simp_all [Cfg.get, Cfg.set, Cfg.record, pcOk_at, called_at, orderOk]

theorem step_invLog (net : List Char → Reply) (i : Int) (t : Bool) (c : Cfg)
    (hInvPc : InvPc (subResult (net (subUrl (i - 1)))) (subResult (net (subUrl (i - 2)))) i c)
    (hInvMtx : InvMtx (subResult (net (subUrl (i - 1)))) (subResult (net (subUrl (i - 2)))) i c)
    (h : InvLog (subResult (net (subUrl (i - 1)))) (subResult (net (subUrl (i - 2)))) i c) :
    InvLog (subResult (net (subUrl (i - 1)))) (subResult (net (subUrl (i - 2)))) i
      (step net t c) := by
  generalize ho1 : subResult (net (subUrl (i - 1))) = o1 at h hInvPc hInvMtx ⊢
  generalize ho2 : subResult (net (subUrl (i - 2))) = o2 at h hInvPc hInvMtx ⊢
  unfold InvLog InvPc InvMtx at *
  cases t
  · cases hp : c.g1.pc
    case call =>
      rw [step_call net false c hp]
      cases o1 <;>
      simp_all [Cfg.get, Cfg.set, Cfg.record, pcOk_at, crit_at, Event.asCoded]
    case lock =>
      rw [step_lock net false c hp]
      cases hc : c.g2.pc.crit <;>
      simp_all [Cfg.get, Cfg.set, Cfg.record, pcOk_at, crit_at, Event.asCoded]
    case load =>
      rw [step_load net false c hp]
      simp_all [Cfg.get, Cfg.set, Cfg.record, pcOk_at, crit_at, Event.asCoded]
    case store =>
      rw [step_store net false c hp]
      simp_all [Cfg.get, Cfg.set, Cfg.record, pcOk_at, crit_at, Event.asCoded]
    case unlock =>
      rw [step_unlock net false c hp]
      simp_all [Cfg.get, Cfg.set, Cfg.record, pcOk_at, crit_at, Event.asCoded]
    case check =>
      rw [step_check net false c hp]
      cases hf : c.failed <;>
      simp_all [Cfg.get, Cfg.set, Cfg.record, pcOk_at, crit_at, Event.asCoded]
    case header =>
      rw [step_header net false c hp]
      simp_all [Cfg.get, Cfg.set, Cfg.record, pcOk_at, crit_at, Event.asCoded]
    case setFailed =>
      rw [step_setFailed net false c hp]
      simp_all [Cfg.get, Cfg.set, Cfg.record, pcOk_at, crit_at, Event.asCoded]
    case print =>
      rw [step_print net false c hp]
      simp_all [Cfg.get, Cfg.set, Cfg.record, pcOk_at, crit_at, Event.asCoded]
    case wgDone =>
      rw [step_wgDone net false c hp]
      simp_all [Cfg.get, Cfg.set, Cfg.record, pcOk_at, crit_at, Event.asCoded]
    case done =>
      rw [step_done net false c hp]
      simp_all [Cfg.get, Cfg.set, Cfg.record, pcOk_at, crit_at, Event.asCoded]
  · cases hp : c.g2.pc
    case call =>
      rw [step_call net true c hp]
      cases o2 <;>
      simp_all [Cfg.get, Cfg.set, Cfg.record, pcOk_at, crit_at, Event.asCoded]
    case lock =>
      rw [step_lock net true c hp]
      cases hc : c.g1.pc.crit <;>
      simp_all [Cfg.get, Cfg.set, Cfg.record, pcOk_at, crit_at, Event.asCoded]
    case load =>
      rw [step_load net true c hp]
      simp_all [Cfg.get, Cfg.set, Cfg.record, pcOk_at, crit_at, Event.asCoded]
    case store =>
      rw [step_store net true c hp]
      simp_all [Cfg.get, Cfg.set, Cfg.record, pcOk_at, crit_at, Event.asCoded]
    case unlock =>
      rw [step_unlock net true c hp]
      simp_all [Cfg.get, Cfg.set, Cfg.record, pcOk_at, crit_at, Event.asCoded]
    case check =>
      rw [step_check net true c hp]
      cases hf : c.failed <;>
      simp_all [Cfg.get, Cfg.set, Cfg.record, pcOk_at, crit_at, Event.asCoded]
    case header =>
      rw [step_header net true c hp]
      simp_all [Cfg.get, Cfg.set, Cfg.record, pcOk_at, crit_at, Event.asCoded]
    case setFailed =>
      rw [step_setFailed net true c hp]
      simp_all [Cfg.get, Cfg.set, Cfg.record, pcOk_at, crit_at, Event.asCoded]
    case print =>
      rw [step_print net true c hp]
      simp_all [Cfg.get, Cfg.set, Cfg.record, pcOk_at, crit_at, Event.asCoded]
    case wgDone =>
      rw [step_wgDone net true c hp]
      simp_all [Cfg.get, Cfg.set, Cfg.record, pcOk_at, crit_at, Event.asCoded]
    case done =>
      rw [step_done net true c hp]
      simp_all [Cfg.get, Cfg.set, Cfg.record, pcOk_at, crit_at, Event.asCoded]

/-! ### The invariant holds along every schedule -/

theorem inv_init (o1 o2 : Option Int) (i : Int) :
    Inv o1 o2 i (Cfg.init ResponseWriter.new i) := by
  simp [Inv, InvPc, InvMtx, InvRet, InvFail, InvBody, InvRace, InvFin, InvCalls, InvLog,
    InvEnter, pastPrint_at,
    Cfg.init, pcOk_at, crit_at, added_at, pastSet_at, pastHdr_at, written_at, orderOk,
    isDone_at, called_at, ResponseWriter.new, wrapInt]

theorem step_inv (net : List Char → Reply) (i : Int) (t : Bool) (c : Cfg)
    (h : Inv (subResult (net (subUrl (i - 1)))) (subResult (net (subUrl (i - 2)))) i c) :
    Inv (subResult (net (subUrl (i - 1)))) (subResult (net (subUrl (i - 2)))) i
      (step net t c) := by
  obtain ⟨hpc, hmtx, hret, hfail, hbody, hrace, hfin, hcalls, hlog, henter⟩ := h
  exact ⟨step_invPc net i t c hpc, step_invMtx net i t c hpc hmtx,
    step_invRet net i t c hpc hmtx hret, step_invFail net i t c hpc hfail,
    step_invBody net i t c hpc hbody, step_invRace net i t c hpc hrace,
    step_invFin net i t c hpc hfin, step_invCalls net i t c hpc hcalls,
    step_invLog net i t c hpc hmtx hlog, step_invEnter net i t c hpc henter⟩

theorem exec_inv (net : List Char → Reply) (i : Int) (sched : List Bool) :
    ∀ c, Inv (subResult (net (subUrl (i - 1)))) (subResult (net (subUrl (i - 2)))) i c →
      Inv (subResult (net (subUrl (i - 1)))) (subResult (net (subUrl (i - 2)))) i
        (exec net sched c) := by
  induction sched with
  | nil => intro c h; exact h
  | cons t rest ih =>
    intro c h
    exact ih (step net t c) (step_inv net i t c h)

/-- What the fan-out phase has done once both goroutines have finished. -/
theorem inv_allDone (o1 o2 : Option Int) (i : Int) (c : Cfg) (h : Inv o1 o2 i c)
    (hd : c.allDone = true) :
    c.ret = wrapInt (o1.getD 0 + o2.getD 0) ∧
    c.w.status = (if o1.isNone || o2.isNone then some 503 else none) ∧
    (c.w.body = (if o1.isNone then failLine (i - 1) else [])
        ++ (if o2.isNone then failLine (i - 2) else []) ∨
      c.w.body = (if o2.isNone then failLine (i - 2) else [])
        ++ (if o1.isNone then failLine (i - 1) else [])) ∧
    (c.w.raced = true → o1 = none ∧ o2 = none) ∧
    (c.finished = [false, true] ∨ c.finished = [true, false]) ∧
    (c.calls = [subUrl (i - 1), subUrl (i - 2)] ∨ c.calls = [subUrl (i - 2), subUrl (i - 1)]) ∧
    c.log.all Event.asCoded = true ∧
    (o1 = none → o2 = none → c.w.raced = true) := by
  obtain ⟨hpc, hmtx, hret, hfail, hbody, hrace, hfin, hcalls, hlog, henter⟩ := h
  unfold Cfg.allDone at hd
  simp only [Bool.and_eq_true, decide_eq_true_eq] at hd
  obtain ⟨hd1, hd2⟩ := hd
  unfold InvRet at hret
  unfold InvFail at hfail
  unfold InvBody at hbody
  unfold InvRace at hrace
  unfold InvFin at hfin
  unfold InvCalls at hcalls
  unfold InvLog at hlog
  unfold InvEnter at henter
  rw [hd1, hd2] at hret hfail hbody hfin hcalls henter
  simp only [added_at, pastHdr_at, written_at, isDone_at, called_at, orderOk, pastPrint_at]
    at hret hfail hbody hfin hcalls henter
  refine ⟨hret.2.2, hfail.2, hbody, hrace.1, hfin.2.2.2 trivial trivial,
    hcalls.2.2.2 trivial trivial, hlog, ?_⟩
  intro h1 h2
  rw [h1, h2] at henter
  rcases henter.1 rfl with hu | hr
  · rcases henter.2 rfl with hu2 | hr
    · rw [hu] at hu2
      exact absurd hu2 (by decide)
    · exact hr
  · exact hr

/-! ### The handler as a whole -/

theorem atoi_inRange (s : List Char) (v : Int) (h : atoi s = some v) : InRange v := by
  unfold atoi at h
  by_cases he : (splitSign s).2 = []
  · simp [he] at h
  · cases hp : parseDigits (splitSign s).2 0 with
    | none => simp [he, hp] at h
    | some n =>
      simp only [he, hp, if_false] at h
      generalize (if (splitSign s).1 = true then -(n : Int) else (n : Int)) = x at h
      by_cases hr : minInt ≤ x ∧ x ≤ maxInt
      · rw [if_pos hr] at h
        have hv := Option.some.inj h
        rw [← hv]
        exact hr
      · rw [if_neg hr] at h
        exact absurd h (by simp)

theorem subResult_inRange (r : Reply) (v : Int) (h : subResult r = some v) : InRange v := by
  cases r with
  | transportError => simp [subResult] at h
  | readError => simp [subResult] at h
  | ok st body => exact atoi_inRange body v h

theorem parseIndex_ofInt (i : Int) (h : InRange i) : parseIndex (Request.ofInt i) = some i := by
  simp [parseIndex, Request.ofInt, atoi_fmtInt i h]

theorem parseIndex_inRange (req : Request) (i : Int) (h : parseIndex req = some i) :
    InRange i := by
  unfold parseIndex at h
  split at h
  · exact atoi_inRange _ i h
  · exact absurd h (by simp)

/-- The fan-out path of the handler (`2 ≤ i`), for every network and every
schedule that lets both goroutines finish. The response is determined as soon
as one of the sub-calls succeeded, and only then. -/
theorem fibHandler_fanout (net : List Char → Reply) (sched : List Bool) (req : Request)
    (i : Int) (run : Run) (hi : parseIndex req = some i) (h2 : 2 ≤ i)
    (hrun : fibHandler net sched req = some run) :
    run.ret = wrapInt ((subResult (net (subUrl (i - 1)))).getD 0
      + (subResult (net (subUrl (i - 2)))).getD 0) ∧
    ((subResult (net (subUrl (i - 1)))).isSome = true ∨
        (subResult (net (subUrl (i - 2)))).isSome = true →
      run.response = some
        ⟨if (subResult (net (subUrl (i - 1)))).isNone
              || (subResult (net (subUrl (i - 2)))).isNone then 503 else 200,
          (if (subResult (net (subUrl (i - 1)))).isNone then failLine (i - 1) else [])
            ++ (if (subResult (net (subUrl (i - 2)))).isNone then failLine (i - 2) else [])
            ++ fmtInt run.ret⟩) ∧
    (run.finished = [false, true] ∨ run.finished = [true, false]) ∧
    (run.calls = [subUrl (i - 1), subUrl (i - 2)] ∨
      run.calls = [subUrl (i - 2), subUrl (i - 1)]) ∧
    run.log.all Event.asCoded = true ∧
    (subResult (net (subUrl (i - 1))) = none → subResult (net (subUrl (i - 2))) = none →
      run.response = none) := by
  unfold fibHandler at hrun
  rw [hi] at hrun
  simp only [show ¬ i < 2 by omega, if_false] at hrun
  split at hrun
  · rename_i hd
    have hinv := exec_inv net i sched _ (inv_init _ _ i)
    obtain ⟨hret, hstat, hbody, hrace, hfin, hcalls, hlog, hboth⟩ :=
      inv_allDone _ _ i _ hinv hd
    have hr := Option.some.inj hrun
    subst hr
    refine ⟨hret, ?_, hfin, hcalls, hlog, ?_⟩
    rotate_left
    · intro h1 h2'
      simp [Run.response, ResponseWriter.finish, ResponseWriter.Write, hboth h1 h2']
    intro hsome
    generalize subResult (net (subUrl (i - 1))) = o1 at *
    generalize subResult (net (subUrl (i - 2))) = o2 at *
    generalize (exec net sched (Cfg.init ResponseWriter.new i)) = c at *
    have hnr : c.w.raced = false := by
      cases hr : c.w.raced
      · rfl
      · obtain ⟨h1, h2'⟩ := hrace hr
        rw [h1, h2'] at hsome
        simp at hsome
    simp only [Run.response, ResponseWriter.finish, ResponseWriter.Write, hnr,
      Bool.false_eq_true, if_false, hstat]
    cases o1 <;> cases o2 <;> simp_all
  · exact absurd hrun (by simp)

theorem exec_schedSeq (net : List Char → Reply) (i : Int) :
    (exec net schedSeq (Cfg.init ResponseWriter.new i)).allDone = true ∧
    (exec net schedSeq (Cfg.init ResponseWriter.new i)).finished = [false, true] := by
  cases h1 : subResult (net (subUrl (i - 1))) <;> cases h2 : subResult (net (subUrl (i - 2))) <;>
    simp [exec, schedSeq, step, Cfg.init, Cfg.get, Cfg.set, Cfg.record, Cfg.allDone, h1, h2]

theorem exec_schedRev (net : List Char → Reply) (i : Int) :
    (exec net schedRev (Cfg.init ResponseWriter.new i)).allDone = true ∧
    (exec net schedRev (Cfg.init ResponseWriter.new i)).finished = [true, false] := by
  cases h1 : subResult (net (subUrl (i - 1))) <;> cases h2 : subResult (net (subUrl (i - 2))) <;>
    simp [exec, schedRev, step, Cfg.init, Cfg.get, Cfg.set, Cfg.record, Cfg.allDone, h1, h2]

/-! ### No deadlock -/

theorem remaining_at :
    remaining Pc.call = 6 ∧ remaining Pc.lock = 5 ∧ remaining Pc.load = 4 ∧
    remaining Pc.store = 3 ∧ remaining Pc.unlock = 2 ∧ remaining Pc.check = 5 ∧
    remaining Pc.header = 4 ∧ remaining Pc.setFailed = 3 ∧ remaining Pc.print = 2 ∧
    remaining Pc.wgDone = 1 ∧ remaining Pc.done = 0 :=
  ⟨rfl, rfl, rfl, rfl, rfl, rfl, rfl, rfl, rfl, rfl, rfl⟩

theorem remaining_eq_zero (pc : Pc) : remaining pc = 0 ↔ pc = Pc.done := by
  cases pc <;> simp [remaining]

/-- A statement of goroutine 1 that is not a wait for the lock brings goroutine 1
closer to its end and leaves goroutine 2 where it is. -/
theorem step_progress_g1 (net : List Char → Reply) (c : Cfg) (hnd : c.g1.pc ≠ Pc.done)
    (hfree : c.g1.pc = Pc.lock → c.mtx = none) :
    remaining (step net false c).g1.pc < remaining c.g1.pc ∧
    (step net false c).g2.pc = c.g2.pc := by
  cases hp : c.g1.pc
  case call =>
    rw [step_call net false c hp]
    cases subResult (net (subUrl (c.get false).n)) <;>
      simp [Cfg.get, Cfg.set, Cfg.record, remaining_at]
  case lock =>
    rw [step_lock net false c hp, hfree hp]
    simp [Cfg.get, Cfg.set, remaining_at]
  case load => rw [step_load net false c hp]; simp [Cfg.get, Cfg.set, Cfg.record, remaining_at]
  case store => rw [step_store net false c hp]; simp [Cfg.get, Cfg.set, Cfg.record, remaining_at]
  case unlock => rw [step_unlock net false c hp]; simp [Cfg.get, Cfg.set, remaining_at]
  case check =>
    rw [step_check net false c hp]
    cases c.failed <;> simp [Cfg.get, Cfg.set, Cfg.record, remaining_at]
  case header => rw [step_header net false c hp]; simp [Cfg.get, Cfg.set, remaining_at]
  case setFailed =>
    rw [step_setFailed net false c hp]; simp [Cfg.get, Cfg.set, Cfg.record, remaining_at]
  case print => rw [step_print net false c hp]; simp [Cfg.get, Cfg.set, remaining_at]
  case wgDone => rw [step_wgDone net false c hp]; simp [Cfg.get, Cfg.set, remaining_at]
  case done => exact absurd hp hnd

/-- The same for goroutine 2. -/
theorem step_progress_g2 (net : List Char → Reply) (c : Cfg) (hnd : c.g2.pc ≠ Pc.done)
    (hfree : c.g2.pc = Pc.lock → c.mtx = none) :
    remaining (step net true c).g2.pc < remaining c.g2.pc ∧
    (step net true c).g1.pc = c.g1.pc := by
  cases hp : c.g2.pc
  case call =>
    rw [step_call net true c hp]
    cases subResult (net (subUrl (c.get true).n)) <;>
      simp [Cfg.get, Cfg.set, Cfg.record, remaining_at]
  case lock =>
    rw [step_lock net true c hp, hfree hp]
    simp [Cfg.get, Cfg.set, remaining_at]
  case load => rw [step_load net true c hp]; simp [Cfg.get, Cfg.set, Cfg.record, remaining_at]
  case store => rw [step_store net true c hp]; simp [Cfg.get, Cfg.set, Cfg.record, remaining_at]
  case unlock => rw [step_unlock net true c hp]; simp [Cfg.get, Cfg.set, remaining_at]
  case check =>
    rw [step_check net true c hp]
    cases c.failed <;> simp [Cfg.get, Cfg.set, Cfg.record, remaining_at]
  case header => rw [step_header net true c hp]; simp [Cfg.get, Cfg.set, remaining_at]
  case setFailed =>
    rw [step_setFailed net true c hp]; simp [Cfg.get, Cfg.set, Cfg.record, remaining_at]
  case print => rw [step_print net true c hp]; simp [Cfg.get, Cfg.set, remaining_at]
  case wgDone => rw [step_wgDone net true c hp]; simp [Cfg.get, Cfg.set, remaining_at]
  case done => exact absurd hp hnd

theorem exec_append (net : List Char → Reply) (s1 s2 : List Bool) (c : Cfg) :
    exec net (s1 ++ s2) c = exec net s2 (exec net s1 c) := by
  simp [exec, List.foldl_append]

/-- No deadlock: from every state the fan-out phase can reach, some
continuation of the schedule lets both goroutines finish. -/
theorem exec_can_finish (net : List Char → Reply) (i : Int) (m : Nat) :
    ∀ c, Inv (subResult (net (subUrl (i - 1)))) (subResult (net (subUrl (i - 2)))) i c →
      remaining c.g1.pc + remaining c.g2.pc ≤ m →
      ∃ ext, (exec net ext c).allDone = true := by
  induction m with
  | zero =>
    intro c _ hm
    refine ⟨[], ?_⟩
    have h1 : c.g1.pc = Pc.done := (remaining_eq_zero _).1 (by omega)
    have h2 : c.g2.pc = Pc.done := (remaining_eq_zero _).1 (by omega)
    simp [exec, Cfg.allDone, h1, h2]
  | succ m ih =>
    intro c hinv hm
    have hmtx := hinv.2.1
    unfold InvMtx at hmtx
    by_cases hgo1 : c.g1.pc ≠ Pc.done ∧ (c.g1.pc = Pc.lock → c.mtx = none)
    · obtain ⟨hlt, hsame⟩ := step_progress_g1 net c hgo1.1 hgo1.2
      obtain ⟨ext, hext⟩ := ih (step net false c) (step_inv net i false c hinv)
        (by rw [hsame]; omega)
      exact ⟨false :: ext, hext⟩
    · by_cases hd2 : c.g2.pc = Pc.done
      · by_cases hd1 : c.g1.pc = Pc.done
        · exact ⟨[], by simp [exec, Cfg.allDone, hd1, hd2]⟩
        · exfalso
          apply hgo1
          refine ⟨hd1, fun hl => ?_⟩
          rw [hmtx.1, hl, hd2]
          simp [crit_at]
      · have hfree2 : c.g2.pc = Pc.lock → c.mtx = none := by
          intro hl
          by_cases hd1 : c.g1.pc = Pc.done
          · rw [hmtx.1, hl, hd1]; simp [crit_at]
          · have hl1 : c.g1.pc = Pc.lock ∧ c.mtx ≠ none := by
              by_contra hcon
              apply hgo1
              refine ⟨hd1, fun h1 => ?_⟩
              by_contra hne
              exact hcon ⟨h1, hne⟩
            exfalso
            apply hl1.2
            rw [hmtx.1, hl, hl1.1]; simp [crit_at]
        obtain ⟨hlt, hsame⟩ := step_progress_g2 net c hd2 hfree2
        obtain ⟨ext, hext⟩ := ih (step net true c) (step_inv net i true c hinv)
          (by rw [hsame]; omega)
        exact ⟨true :: ext, hext⟩

/-- Whatever the two goroutines have done so far, the request can be brought to
its end: every schedule has a continuation on which the handler returns. -/
theorem fibHandler_can_finish (net : List Char → Reply) (req : Request) (sched : List Bool) :
    ∃ ext run, fibHandler net (sched ++ ext) req = some run := by
  unfold fibHandler
  cases hi : parseIndex req with
  | none => exact ⟨[], _, rfl⟩
  | some i =>
    by_cases h : i < 2
    · exact ⟨[], ⟨ResponseWriter.new.Write (fmtInt 1), 1, [], [], []⟩, by simp [h]⟩
    · obtain ⟨ext, hext⟩ := exec_can_finish net i 12
        (exec net sched (Cfg.init ResponseWriter.new i))
        (exec_inv net i sched _ (inv_init _ _ i))
        (by
          have h1 : remaining (exec net sched (Cfg.init ResponseWriter.new i)).g1.pc ≤ 6 := by
            cases (exec net sched (Cfg.init ResponseWriter.new i)).g1.pc <;> simp [remaining]
          have h2 : remaining (exec net sched (Cfg.init ResponseWriter.new i)).g2.pc ≤ 6 := by
            cases (exec net sched (Cfg.init ResponseWriter.new i)).g2.pc <;> simp [remaining]
          omega)
      refine ⟨ext, ⟨(exec net (sched ++ ext) (Cfg.init ResponseWriter.new i)).w.Write
          (fmtInt (exec net (sched ++ ext) (Cfg.init ResponseWriter.new i)).ret),
        (exec net (sched ++ ext) (Cfg.init ResponseWriter.new i)).ret,
        (exec net (sched ++ ext) (Cfg.init ResponseWriter.new i)).calls,
        (exec net (sched ++ ext) (Cfg.init ResponseWriter.new i)).finished,
        (exec net (sched ++ ext) (Cfg.init ResponseWriter.new i)).log⟩, ?_⟩
      simp only [h, if_false, exec_append, hext, if_true]

/-! ### Newlines -/

theorem fmtNat_digits (n : Nat) : ∀ c ∈ fmtNat n, isDigit c = true := by
  induction n using Nat.strong_induction_on with
  | _ n ih =>
    by_cases h10 : n < 10
    · rw [fmtNat_small n h10]
      intro c hc
      simp only [List.mem_singleton] at hc
      rw [hc]
      exact digitChar_isDigit n
    · have hdiv : n / 10 < n := Nat.div_lt_self (by omega) (by omega)
      rw [fmtNat_large n (by omega)]
      intro c hc
      rcases List.mem_append.1 hc with h | h
      · exact ih _ hdiv c h
      · simp only [List.mem_singleton] at h
        rw [h]
        exact digitChar_isDigit _

/-- The rendering `%d` never contains a newline. -/
theorem fmtInt_no_newline (x : Int) : '\n' ∉ fmtInt x := by
  intro h
  unfold fmtInt at h
  split at h
  · rcases List.mem_cons.1 h with h | h
    · exact absurd h (by decide)
    · exact absurd (fmtNat_digits _ _ h) (by decide)
  · exact absurd (fmtNat_digits _ _ h) (by decide)

theorem fmtInt_count_newline (x : Int) : (fmtInt x).count '\n' = 0 :=
  List.count_eq_zero.2 (fmtInt_no_newline x)

/-- The failure line has exactly one newline, at its end. -/
theorem failLine_count_newline (n : Int) : (failLine n).count '\n' = 1 := by
  simp [failLine, fmtBadVerbS, List.count_append, fmtInt_count_newline]

theorem failLine_head (n : Int) : ∃ rest, failLine n = 'F' :: rest :=
  ⟨_, rfl⟩

theorem parseFailureText_head (req : Request) : ∃ rest, parseFailureText req = 'C' :: rest :=
  ⟨_, rfl⟩

/-! ### The claims about `fibHandler` -/

/-- The base case (lines 137-138 and 189): for `i < 2` no goroutine is started
and the handler writes `ret = 1`. -/
theorem fibHandler_base (net : List Char → Reply) (sched : List Bool) (req : Request)
    (i : Int) (hi : parseIndex req = some i) (hlt : i < 2) :
    fibHandler net sched req = some ⟨ResponseWriter.new.Write (fmtInt 1), 1, [], [], []⟩ := by
  simp [fibHandler, hi, hlt]

/-- C3: a request whose single value of `i` parses to an integer below 2 makes
no sub-call and is answered with status 200 and the body `1`, whatever the
network and the schedule. -/
theorem fibHandler_base_case (net : List Char → Reply) (sched : List Bool) (req : Request)
    (i : Int) (hi : parseIndex req = some i) (hlt : i < 2) :
    ∃ run, fibHandler net sched req = some run ∧ run.calls = [] ∧
      run.response = some ⟨200, ['1']⟩ :=
  ⟨⟨ResponseWriter.new.Write (fmtInt 1), 1, [], [], []⟩,
    fibHandler_base net sched req i hi hlt, rfl, by decide⟩

theorem fibHandler_base_case_witness :
    parseIndex ⟨["-7".toList]⟩ = some (-7) ∧ (-7 : Int) < 2 ∧
    ∃ run, fibHandler netDown schedRace ⟨["-7".toList]⟩ = some run ∧ run.calls = [] ∧
      run.response = some ⟨200, ['1']⟩ :=
  ⟨by decide, by decide,
    fibHandler_base_case netDown schedRace ⟨["-7".toList]⟩ (-7) (by decide) (by decide)⟩

/-- The malformed-input path (lines 128-132), for every request whose `i` is
absent, repeated or rejected by `Atoi`: no sub-call, the diagnostic text as the
whole body, and, because the text is written before `WriteHeader(503)` is
called, status 200. -/
theorem fibHandler_malformed (net : List Char → Reply) (sched : List Bool) (req : Request)
    (hi : parseIndex req = none) :
    fibHandler net sched req
      = some ⟨⟨some 200, parseFailureText req, [503], none, false⟩, 0, [], [], []⟩ := by
  simp [fibHandler, hi, ResponseWriter.new, ResponseWriter.Write, ResponseWriter.WriteHeader]

/-- C4: for every request whose `i` is absent, repeated or rejected by `Atoi`,
the handler makes no sub-call and writes one diagnostic sentence that echoes
the raw values, but the status the client receives is 200, not 503: the call
`WriteHeader(503)` comes after the body has been written and has no effect. So
it is on `i=foo`, on a request without `i`, and on `i=3&i=4`. -/
theorem fibHandler_malformed_status (net : List Char → Reply) (sched : List Bool) :
    (∀ req, parseIndex req = none →
      ∃ run, fibHandler net sched req = some run ∧ run.calls = [] ∧
        run.w.headerCalls = [503] ∧
        run.response = some ⟨200, "Couldn\x27t parse index \x27".toList
          ++ fmtStrings req.iValues ++ "\x27.".toList⟩) ∧
    (fibHandler net sched ⟨["foo".toList]⟩).bind Run.response
      = some ⟨200, "Couldn\x27t parse index \x27[foo]\x27.".toList⟩ ∧
    (fibHandler net sched ⟨[]⟩).bind Run.response
      = some ⟨200, "Couldn\x27t parse index \x27[]\x27.".toList⟩ ∧
    (fibHandler net sched ⟨["3".toList, "4".toList]⟩).bind Run.response
      = some ⟨200, "Couldn\x27t parse index \x27[3 4]\x27.".toList⟩ := by
  refine ⟨?_, ?_, ?_, ?_⟩
  · intro req hreq
    exact ⟨_, fibHandler_malformed net sched req hreq, rfl, rfl, rfl⟩
  · rw [fibHandler_malformed net sched _ (by decide)]; decide
  · rw [fibHandler_malformed net sched _ (by decide)]; decide
  · rw [fibHandler_malformed net sched _ (by decide)]; decide

/-- The fan-out path when the sub-call of goroutine `t` fails and the other one
yields `v`: the total is `v`, and the response is 503 with the failure line of
the failed index followed by the total. -/
theorem fibHandler_fanout_one (net : List Char → Reply) (sched : List Bool) (req : Request)
    (i v : Int) (t : Bool) (run : Run) (hi : parseIndex req = some i) (h2 : 2 ≤ i)
    (hfail : subResult (net (subUrl (subIndex i t))) = none)
    (hok : subResult (net (subUrl (subIndex i (!t)))) = some v)
    (hrun : fibHandler net sched req = some run) :
    run.ret = v ∧ run.response = some ⟨503, failLine (subIndex i t) ++ fmtInt v⟩ := by
  obtain ⟨hret, hresp, _, _, _⟩ := fibHandler_fanout net sched req i run hi h2 hrun
  have hv : wrapInt v = v := wrapInt_of_inRange v (subResult_inRange _ v hok)
  cases t
  · simp only [subIndex, Bool.not_false, if_true, Bool.false_eq_true, if_false]
      at hfail hok ⊢
    rw [hfail, hok] at hret hresp
    have hr : run.ret = v := by rw [hret]; simpa using hv
    refine ⟨hr, ?_⟩
    rw [hresp (Or.inr rfl), hr]
    simp
  · simp only [subIndex, Bool.not_true, if_true, Bool.false_eq_true, if_false]
      at hfail hok ⊢
    rw [hfail, hok] at hret hresp
    have hr : run.ret = v := by rw [hret]; simpa using hv
    refine ⟨hr, ?_⟩
    rw [hresp (Or.inl rfl), hr]
    simp

/-- C5: for `2 ≤ i`, when the sub-call of goroutine `t` fails (no reply, no
body, or a body `Atoi` rejects) and the other one yields `v`, every schedule
that lets both goroutines finish gives status 503 and a body that consists of
the one failure line, which names the failed index, followed by `v`; the body
has exactly one newline; both URLs were called. Every schedule can be continued
so that both goroutines finish and the handler returns. -/
theorem fibHandler_one_failure (net : List Char → Reply) (req : Request) (i v : Int)
    (t : Bool) (hi : parseIndex req = some i) (h2 : 2 ≤ i)
    (hfail : subResult (net (subUrl (subIndex i t))) = none)
    (hok : subResult (net (subUrl (subIndex i (!t)))) = some v) :
    (∀ sched, ∃ ext run, fibHandler net (sched ++ ext) req = some run) ∧
    ∀ sched run, fibHandler net sched req = some run →
      run.response = some ⟨503, failLine (subIndex i t) ++ fmtInt v⟩ ∧
      failLine (subIndex i t)
        = "Failed to call child index \x27%!s(int=".toList ++ fmtInt (subIndex i t)
          ++ ")\x27.\n".toList ∧
      (failLine (subIndex i t) ++ fmtInt v).count '\n' = 1 ∧
      subUrl (i - 1) ∈ run.calls ∧ subUrl (i - 2) ∈ run.calls ∧ run.calls.length = 2 := by
  refine ⟨fibHandler_can_finish net req, ?_⟩
  intro sched run hrun
  obtain ⟨_, _, _, hcalls, _⟩ := fibHandler_fanout net sched req i run hi h2 hrun
  have hline : failLine (subIndex i t)
      = "Failed to call child index \x27%!s(int=".toList ++ fmtInt (subIndex i t)
        ++ ")\x27.\n".toList := by
    simp [failLine, fmtBadVerbS]
  refine ⟨(fibHandler_fanout_one net sched req i v t run hi h2 hfail hok hrun).2, hline,
    ?_, ?_, ?_, ?_⟩
  · rw [List.count_append, failLine_count_newline, fmtInt_count_newline]
  · rcases hcalls with hc | hc <;> simp [hc]
  · rcases hcalls with hc | hc <;> simp [hc]
  · rcases hcalls with hc | hc <;> simp [hc]

theorem fibHandler_one_failure_witness :
    parseIndex (Request.ofInt 2) = some 2 ∧ (2 : Int) ≤ 2 ∧
    subResult (netOnlyZero (subUrl (subIndex 2 false))) = none ∧
    subResult (netOnlyZero (subUrl (subIndex 2 (!false)))) = some 1 ∧
    ((∀ sched, ∃ ext run, fibHandler netOnlyZero (sched ++ ext) (Request.ofInt 2) = some run) ∧
    ∀ sched run, fibHandler netOnlyZero sched (Request.ofInt 2) = some run →
      run.response = some ⟨503, failLine (subIndex 2 false) ++ fmtInt 1⟩ ∧
      failLine (subIndex 2 false)
        = "Failed to call child index \x27%!s(int=".toList ++ fmtInt (subIndex 2 false)
          ++ ")\x27.\n".toList ∧
      (failLine (subIndex 2 false) ++ fmtInt 1).count '\n' = 1 ∧
      subUrl (2 - 1) ∈ run.calls ∧ subUrl (2 - 2) ∈ run.calls ∧ run.calls.length = 2) :=
  ⟨by decide, by decide, by decide, by decide,
    fibHandler_one_failure netOnlyZero (Request.ofInt 2) 2 1 false (by decide) (by decide)
      (by decide) (by decide)⟩

/-- C6, as the code has it: for `2 ≤ i`, once a sub-call has failed, the total
`ret` still holds what the other sub-call yielded (0 when that one failed too);
and when exactly one sub-call has failed, every schedule that lets both
goroutines finish gives status 503 and a body made of the failure line followed
by the decimal rendering of that total: the total is returned, after the
failure line. Every schedule can be continued so that the handler returns.
Nothing is said about the response when both sub-calls fail, where the two
goroutines call into the writer with nothing that orders their calls. -/
theorem fibHandler_failure_body (net : List Char → Reply) (req : Request) (i : Int)
    (hi : parseIndex req = some i) (h2 : 2 ≤ i)
    (hfail : subResult (net (subUrl (i - 1))) = none ∨
      subResult (net (subUrl (i - 2))) = none) :
    (∀ sched, ∃ ext run, fibHandler net (sched ++ ext) req = some run) ∧
    ∀ sched run, fibHandler net sched req = some run →
      run.ret = (subResult (net (subUrl (i - 1)))).getD 0
        + (subResult (net (subUrl (i - 2)))).getD 0 ∧
      ∀ t v, subResult (net (subUrl (subIndex i t))) = none →
        subResult (net (subUrl (subIndex i (!t)))) = some v →
        run.ret = v ∧
        run.response = some ⟨503, failLine (subIndex i t) ++ fmtInt run.ret⟩ := by
  refine ⟨fibHandler_can_finish net req, ?_⟩
  intro sched run hrun
  obtain ⟨hret, _, _, _, _⟩ := fibHandler_fanout net sched req i run hi h2 hrun
  refine ⟨?_, ?_⟩
  · rw [hret]
    apply wrapInt_of_inRange
    rcases hfail with h | h
    · rw [h]
      cases h' : subResult (net (subUrl (i - 2))) with
      | none => simp [InRange, minInt, maxInt]
      | some v => simpa using subResult_inRange _ v h'
    · rw [h]
      cases h' : subResult (net (subUrl (i - 1))) with
      | none => simp [InRange, minInt, maxInt]
      | some v => simpa using subResult_inRange _ v h'
  · intro t v hf hok
    obtain ⟨hr, hresp⟩ := fibHandler_fanout_one net sched req i v t run hi h2 hf hok hrun
    exact ⟨hr, by rw [hresp, hr]⟩

theorem fibHandler_failure_body_witness :
    parseIndex (Request.ofInt 2) = some 2 ∧ (2 : Int) ≤ 2 ∧
    (subResult (netOnlyZero (subUrl (2 - 1))) = none ∨
      subResult (netOnlyZero (subUrl (2 - 2))) = none) ∧
    subResult (netOnlyZero (subUrl (subIndex 2 false))) = none ∧
    subResult (netOnlyZero (subUrl (subIndex 2 (!false)))) = some 1 ∧
    ((∀ sched, ∃ ext run, fibHandler netOnlyZero (sched ++ ext) (Request.ofInt 2) = some run) ∧
    ∀ sched run, fibHandler netOnlyZero sched (Request.ofInt 2) = some run →
      run.ret = (subResult (netOnlyZero (subUrl (2 - 1)))).getD 0
        + (subResult (netOnlyZero (subUrl (2 - 2)))).getD 0 ∧
      ∀ t v, subResult (netOnlyZero (subUrl (subIndex 2 t))) = none →
        subResult (netOnlyZero (subUrl (subIndex 2 (!t)))) = some v →
        run.ret = v ∧
        run.response = some ⟨503, failLine (subIndex 2 t) ++ fmtInt run.ret⟩) :=
  ⟨by decide, by decide, Or.inl (by decide), by decide, by decide,
    fibHandler_failure_body netOnlyZero (Request.ofInt 2) 2 (by decide) (by decide)
      (Or.inl (by decide))⟩

/-- C6 as stated fails: on `i=2`, with the sub-call for index 1 failing and the
one for index 0 answered `1`, the body is the failure line followed by the
total `1`, not the failure line alone. -/
theorem fibHandler_failure_body_has_total :
    (fibHandler netOnlyZero schedSeq (Request.ofInt 2)).bind Run.response
      = some ⟨503, "Failed to call child index \x27%!s(int=1)\x27.\n1".toList⟩ ∧
    failLine 1 = "Failed to call child index \x27%!s(int=1)\x27.\n".toList ∧
    (fibHandler netOnlyZero schedSeq (Request.ofInt 2)).bind Run.response
      ≠ some ⟨503, failLine 1⟩ := by
  decide

theorem fibHandler_complete_fanout (net : List Char → Reply) (req : Request) (i : Int)
    (hi : parseIndex req = some i) (h2 : 2 ≤ i) :
    (∃ run, fibHandler net schedSeq req = some run ∧ run.finished = [false, true]) ∧
    (∃ run, fibHandler net schedRev req = some run ∧ run.finished = [true, false]) := by
  unfold fibHandler
  simp [hi, show ¬ i < 2 by omega, (exec_schedSeq net i).1, (exec_schedSeq net i).2,
    (exec_schedRev net i).1, (exec_schedRev net i).2]

/-- The fan-out path when both sub-calls yield a value. -/
theorem fibHandler_fanout_ok (net : List Char → Reply) (sched : List Bool) (req : Request)
    (i a b : Int) (run : Run) (hi : parseIndex req = some i) (h2 : 2 ≤ i)
    (hrun : fibHandler net sched req = some run)
    (ho1 : subResult (net (subUrl (i - 1))) = some a)
    (ho2 : subResult (net (subUrl (i - 2))) = some b) :
    run.response = some ⟨200, fmtInt (wrapInt (a + b))⟩ := by
  obtain ⟨hret, hresp, _, _, _⟩ := fibHandler_fanout net sched req i run hi h2 hrun
  rw [ho1, ho2] at hret hresp
  have hr : run.ret = wrapInt (a + b) := by rw [hret]; rfl
  rw [hresp (Or.inl rfl), hr]
  simp

/-- C2, as the code has it: for `2 ≤ i`, when the replies to the calls for
`i - 1` and `i - 2` have bodies that `Atoi` parses to `a` and `b`, every
schedule that lets both goroutines finish, in whichever order, has called
exactly the two `/fibinternal` URLs for `i - 1` and `i - 2` and gives status 200
with the body `%d` of `a + b` wrapped into the 64-bit `int`, without any
newline; this is `a + b` itself when the sum fits. Both orders of finishing are
reached by some schedule, and every schedule can be continued so that the
handler returns. -/
theorem fibHandler_success (net : List Char → Reply) (req : Request) (i a b : Int)
    (s1 s2 : Nat) (body1 body2 : List Char)
    (hi : parseIndex req = some i) (h2 : 2 ≤ i)
    (h1 : net (subUrl (i - 1)) = Reply.ok s1 body1) (ha : atoi body1 = some a)
    (h1' : net (subUrl (i - 2)) = Reply.ok s2 body2) (hb : atoi body2 = some b) :
    ((∃ run, fibHandler net schedSeq req = some run ∧ run.finished = [false, true]) ∧
      (∃ run, fibHandler net schedRev req = some run ∧ run.finished = [true, false])) ∧
    (∀ sched, ∃ ext run, fibHandler net (sched ++ ext) req = some run) ∧
    ∀ sched run, fibHandler net sched req = some run →
      (run.calls = ["http://127.0.0.1:3000/fibinternal?i=".toList ++ fmtInt (i - 1),
          "http://127.0.0.1:3000/fibinternal?i=".toList ++ fmtInt (i - 2)] ∨
        run.calls = ["http://127.0.0.1:3000/fibinternal?i=".toList ++ fmtInt (i - 2),
          "http://127.0.0.1:3000/fibinternal?i=".toList ++ fmtInt (i - 1)]) ∧
      run.response = some ⟨200, fmtInt (wrapInt (a + b))⟩ ∧
      (InRange (a + b) → run.response = some ⟨200, fmtInt (a + b)⟩) ∧
      ∀ resp, run.response = some resp → '\n' ∉ resp.body := by
  refine ⟨fibHandler_complete_fanout net req i hi h2, fibHandler_can_finish net req, ?_⟩
  intro sched run hrun
  obtain ⟨_, _, _, hcalls, _⟩ := fibHandler_fanout net sched req i run hi h2 hrun
  have ho1 : subResult (net (subUrl (i - 1))) = some a := by rw [h1]; exact ha
  have ho2 : subResult (net (subUrl (i - 2))) = some b := by rw [h1']; exact hb
  have hr := fibHandler_fanout_ok net sched req i a b run hi h2 hrun ho1 ho2
  refine ⟨hcalls, hr, ?_, ?_⟩
  · intro hab
    rw [hr, wrapInt_of_inRange _ hab]
  · intro resp hresp
    rw [hr] at hresp
    rw [← Option.some.inj hresp]
    exact fmtInt_no_newline _

theorem fibHandler_success_witness :
    parseIndex (Request.ofInt 2) = some 2 ∧ (2 : Int) ≤ 2 ∧
    netOne (subUrl (2 - 1)) = Reply.ok 200 "1".toList ∧ atoi "1".toList = some 1 ∧
    netOne (subUrl (2 - 2)) = Reply.ok 200 "1".toList ∧ atoi "1".toList = some 1 ∧
    (((∃ run, fibHandler netOne schedSeq (Request.ofInt 2) = some run ∧
        run.finished = [false, true]) ∧
      (∃ run, fibHandler netOne schedRev (Request.ofInt 2) = some run ∧
        run.finished = [true, false])) ∧
    (∀ sched, ∃ ext run, fibHandler netOne (sched ++ ext) (Request.ofInt 2) = some run) ∧
    ∀ sched run, fibHandler netOne sched (Request.ofInt 2) = some run →
      (run.calls = ["http://127.0.0.1:3000/fibinternal?i=".toList ++ fmtInt (2 - 1),
          "http://127.0.0.1:3000/fibinternal?i=".toList ++ fmtInt (2 - 2)] ∨
        run.calls = ["http://127.0.0.1:3000/fibinternal?i=".toList ++ fmtInt (2 - 2),
          "http://127.0.0.1:3000/fibinternal?i=".toList ++ fmtInt (2 - 1)]) ∧
      run.response = some ⟨200, fmtInt (wrapInt (1 + 1))⟩ ∧
      (InRange (1 + 1) → run.response = some ⟨200, fmtInt (1 + 1)⟩) ∧
      ∀ resp, run.response = some resp → '\n' ∉ resp.body) :=
  ⟨by decide, by decide, by decide, by decide, by decide, by decide,
    fibHandler_success netOne (Request.ofInt 2) 2 1 1 200 200 "1".toList "1".toList
      (by decide) (by decide) (by decide) (by decide) (by decide) (by decide)⟩

/-- C2 as stated fails: on `i=2`, with the replies `9223372036854775807` for
index 1 and `1` for index 0, both accepted by `Atoi`, the body is
`-9223372036854775808`, while the decimal rendering of the sum is
`9223372036854775808`. -/
theorem fibHandler_sum_wraps :
    netLarge (subUrl 1) = Reply.ok 200 "9223372036854775807".toList ∧
    atoi "9223372036854775807".toList = some 9223372036854775807 ∧
    netLarge (subUrl 0) = Reply.ok 200 "1".toList ∧
    atoi "1".toList = some 1 ∧
    (fibHandler netLarge schedSeq (Request.ofInt 2)).bind Run.response
      = some ⟨200, "-9223372036854775808".toList⟩ ∧
    fmtInt (9223372036854775807 + 1) = "9223372036854775808".toList := by
  decide

/-- C7: the status is not written exactly once on every schedule. On `i=2` with
both sub-calls failing, a schedule on which both goroutines read `failed`
(line 177) before either sets it (line 179) makes both call `WriteHeader(503)`;
on the sequential schedule the call is made once. -/
theorem fibHandler_double_header :
    (fibHandler netDown schedRace (Request.ofInt 2)).map (fun r => r.w.headerCalls)
      = some [503, 503] ∧
    (fibHandler netDown schedSeq (Request.ofInt 2)).map (fun r => r.w.headerCalls)
      = some [503] := by
  decide

/-- The accesses of every run of the fan-out path, one by one. -/
theorem fibHandler_log (net : List Char → Reply) (sched : List Bool) (req : Request)
    (i : Int) (run : Run) (hi : parseIndex req = some i) (h2 : 2 ≤ i)
    (hrun : fibHandler net sched req = some run) (e : Event) (he : e ∈ run.log) :
    (e.access = Access.readRet → e.locked = true) ∧
    (e.access = Access.writeRet → e.locked = true) ∧
    (e.access = Access.netCall → e.locked = false) ∧
    (e.access = Access.readFailed → e.locked = false) ∧
    (e.access = Access.writeFailed → e.locked = false) := by
  obtain ⟨_, _, _, _, hlog, _⟩ := fibHandler_fanout net sched req i run hi h2 hrun
  have h := List.all_eq_true.1 hlog e he
  obtain ⟨who, access, locked⟩ := e
  cases access <;> cases locked <;> simp_all [Event.asCoded]

/-- C9: in every run of the fan-out path `ret` is read and written only by a
goroutine that holds `mtx`, and the outbound call is made without the lock; but
`failed` is read (line 177) and set (line 179) by goroutines that do not hold
`mtx`. On `i=2` with both sub-calls failing the accesses are the ones listed,
none of them under the lock; with both succeeding, `ret` is accessed under
it. -/
theorem fibHandler_failed_unlocked :
    (∀ (net : List Char → Reply) (sched : List Bool) (req : Request) (i : Int) (run : Run),
      parseIndex req = some i → 2 ≤ i → fibHandler net sched req = some run →
      ∀ e ∈ run.log,
        (e.access = Access.readRet → e.locked = true) ∧
        (e.access = Access.writeRet → e.locked = true) ∧
        (e.access = Access.netCall → e.locked = false) ∧
        (e.access = Access.readFailed → e.locked = false) ∧
        (e.access = Access.writeFailed → e.locked = false)) ∧
    (fibHandler netDown schedSeq (Request.ofInt 2)).map Run.log
      = some [⟨false, Access.netCall, false⟩, ⟨false, Access.readFailed, false⟩,
          ⟨false, Access.writeFailed, false⟩, ⟨true, Access.netCall, false⟩,
          ⟨true, Access.readFailed, false⟩] ∧
    (fibHandler netOne schedSeq (Request.ofInt 2)).map Run.log
      = some [⟨false, Access.netCall, false⟩, ⟨false, Access.readRet, true⟩,
          ⟨false, Access.writeRet, true⟩, ⟨true, Access.netCall, false⟩,
          ⟨true, Access.readRet, true⟩, ⟨true, Access.writeRet, true⟩] :=
  ⟨fun net sched req i run hi h2 hrun e he =>
      fibHandler_log net sched req i run hi h2 hrun e he,
    by decide, by decide⟩

/-- Every body the handler writes on a failure path, where the response is
determined, starts with a letter: `C` of the diagnostic text or `F` of the
failure line. -/
theorem failure_body_head (net : List Char → Reply) (sched : List Bool) (req : Request)
    (run : Run) (resp : Response)
    (hpath : parseIndex req = none ∨
      ∃ i, parseIndex req = some i ∧ 2 ≤ i ∧
        (subResult (net (subUrl (i - 1))) = none ∨ subResult (net (subUrl (i - 2))) = none))
    (hrun : fibHandler net sched req = some run) (hresp : run.response = some resp) :
    ∃ c rest, resp.body = c :: rest ∧ c ≠ '+' ∧ c ≠ '-' ∧ isDigit c = false := by
  rcases hpath with hreq | ⟨i, hi, h2, hfail⟩
  · rw [fibHandler_malformed net sched req hreq] at hrun
    rw [← Option.some.inj hrun] at hresp
    have hb : resp.body = parseFailureText req := by
      rw [← Option.some.inj hresp]
    obtain ⟨rest, hrest⟩ := parseFailureText_head req
    exact ⟨'C', rest, by rw [hb, hrest], by decide, by decide, by decide⟩
  · obtain ⟨_, hr, _, _, _, hboth⟩ := fibHandler_fanout net sched req i run hi h2 hrun
    cases h1 : subResult (net (subUrl (i - 1))) with
    | none =>
      cases h2' : subResult (net (subUrl (i - 2))) with
      | none =>
        rw [hboth h1 h2'] at hresp
        exact absurd hresp (by simp)
      | some v =>
        rw [h1, h2'] at hr
        have := hr (Or.inr rfl)
        rw [this] at hresp
        obtain ⟨rest, hrest⟩ := failLine_head (i - 1)
        refine ⟨'F', rest ++ ([] ++ fmtInt run.ret), ?_, by decide, by decide, by decide⟩
        rw [← Option.some.inj hresp]
        simp [hrest]
    | some v =>
      rcases hfail with hf | hf
      · rw [hf] at h1; cases h1
      · rw [h1, hf] at hr
        have := hr (Or.inl rfl)
        rw [this] at hresp
        obtain ⟨rest, hrest⟩ := failLine_head (i - 2)
        refine ⟨'F', rest ++ fmtInt run.ret, ?_, by decide, by decide, by decide⟩
        rw [← Option.some.inj hresp]
        simp [hrest]

/-- C10: on every request that takes a failure path (malformed input, or
`2 ≤ i` with a failed sub-call) the handler returns, and whenever its response
is determined (always on malformed input and when exactly one sub-call failed)
the body is rejected by `Atoi`. A parent that gets this body as the reply to the
sub-call of its goroutine `t`, with whatever status code, takes that sub-call as
failed and returns as well: it has called that URL, its total is what the
sibling alone yielded (0 when the sibling failed too), and when the sibling
yielded `v` it answers 503 with the failure line for that index followed by
`v`. -/
theorem failure_body_rejected (net : List Char → Reply) (req : Request)
    (hpath : parseIndex req = none ∨
      ∃ i, parseIndex req = some i ∧ 2 ≤ i ∧
        (subResult (net (subUrl (i - 1))) = none ∨ subResult (net (subUrl (i - 2))) = none)) :
    (∀ sched, ∃ ext run, fibHandler net (sched ++ ext) req = some run) ∧
    ((parseIndex req = none ∨
        ∃ i, parseIndex req = some i ∧ 2 ≤ i ∧
          ((subResult (net (subUrl (i - 1)))).isSome = true ∨
            (subResult (net (subUrl (i - 2)))).isSome = true)) →
      ∀ sched run, fibHandler net sched req = some run → ∃ resp, run.response = some resp) ∧
    ∀ sched run resp, fibHandler net sched req = some run → run.response = some resp →
      atoi resp.body = none ∧
      ∀ (net2 : List Char → Reply) (req2 : Request) (j : Int) (t : Bool) (status : Nat),
        parseIndex req2 = some j → 2 ≤ j →
        net2 (subUrl (subIndex j t)) = Reply.ok status resp.body →
          subResult (net2 (subUrl (subIndex j t))) = none ∧
          (∀ sched2, ∃ ext run2, fibHandler net2 (sched2 ++ ext) req2 = some run2) ∧
          ∀ sched2 run2, fibHandler net2 sched2 req2 = some run2 →
            subUrl (subIndex j t) ∈ run2.calls ∧
            run2.ret = (subResult (net2 (subUrl (subIndex j (!t))))).getD 0 ∧
            ∀ v, subResult (net2 (subUrl (subIndex j (!t)))) = some v →
              run2.response = some ⟨503, failLine (subIndex j t) ++ fmtInt v⟩ := by
  refine ⟨fibHandler_can_finish net req, ?_, ?_⟩
  · intro hdet sched run hrun
    rcases hdet with hreq | ⟨i, hi, h2, hsome⟩
    · rw [fibHandler_malformed net sched req hreq] at hrun
      rw [← Option.some.inj hrun]
      exact ⟨_, rfl⟩
    · obtain ⟨_, hr, _, _, _, _⟩ := fibHandler_fanout net sched req i run hi h2 hrun
      exact ⟨_, hr hsome⟩
  · intro sched run resp hrun hresp
    have hatoi : atoi resp.body = none := by
      obtain ⟨c, rest, hb, hp, hm, hd⟩ := failure_body_head net sched req run resp hpath hrun hresp
      rw [hb]
      exact atoi_of_bad_head c rest hd hm hp
    refine ⟨hatoi, ?_⟩
    intro net2 req2 j t status hj hj2 hnet
    have hsub : subResult (net2 (subUrl (subIndex j t))) = none := by
      rw [hnet]; exact hatoi
    refine ⟨hsub, fibHandler_can_finish net2 req2, ?_⟩
    intro sched2 run2 hrun2
    obtain ⟨hret, _, _, hcalls, _, _⟩ := fibHandler_fanout net2 sched2 req2 j run2 hj hj2 hrun2
    refine ⟨?_, ?_, ?_⟩
    · cases t <;> rcases hcalls with hc | hc <;> simp [hc, subIndex]
    · rw [hret]
      have hw : ∀ o : Option Int, (∀ v, o = some v → InRange v) →
          wrapInt (o.getD 0) = o.getD 0 := by
        intro o ho
        cases o with
        | none => decide
        | some v => exact wrapInt_of_inRange v (ho v rfl)
      cases t
      · simp only [subIndex, Bool.false_eq_true, if_false, Bool.not_false, if_true] at hsub ⊢
        rw [hsub]
        simp only [Option.getD_none, zero_add]
        exact hw _ (fun v h => subResult_inRange _ v h)
      · simp only [subIndex, Bool.false_eq_true, if_false, Bool.not_true, if_true] at hsub ⊢
        rw [hsub]
        simp only [Option.getD_none, add_zero]
        exact hw _ (fun v h => subResult_inRange _ v h)
    · intro v hv
      exact (fibHandler_fanout_one net2 sched2 req2 j v t run2 hj hj2 hsub hv hrun2).2

theorem failure_body_rejected_witness :
    (parseIndex (Request.ofInt 2) = none ∨
      ∃ i, parseIndex (Request.ofInt 2) = some i ∧ 2 ≤ i ∧
        (subResult (netOnlyZero (subUrl (i - 1))) = none ∨
          subResult (netOnlyZero (subUrl (i - 2))) = none)) ∧
    (fibHandler netOnlyZero schedSeq (Request.ofInt 2)).bind Run.response
      = some ⟨503, oneFailureBody⟩ ∧
    atoi oneFailureBody = none ∧
    parseIndex (Request.ofInt 3) = some 3 ∧
    netParent (subUrl (subIndex 3 false)) = Reply.ok 503 oneFailureBody ∧
    subResult (netParent (subUrl (subIndex 3 (!false)))) = some 1 ∧
    (∀ sched2, ∃ ext run2, fibHandler netParent (sched2 ++ ext) (Request.ofInt 3) = some run2) ∧
    ∀ sched2 run2, fibHandler netParent sched2 (Request.ofInt 3) = some run2 →
      subUrl (subIndex 3 false) ∈ run2.calls ∧
      run2.ret = 1 ∧
      run2.response
        = some ⟨503, "Failed to call child index \x27%!s(int=2)\x27.\n1".toList⟩ := by
  have hp : parseIndex (Request.ofInt 2) = none ∨
      ∃ i, parseIndex (Request.ofInt 2) = some i ∧ 2 ≤ i ∧
        (subResult (netOnlyZero (subUrl (i - 1))) = none ∨
          subResult (netOnlyZero (subUrl (i - 2))) = none) :=
    Or.inr ⟨2, by decide, by decide, Or.inl (by decide)⟩
  have hc : (fibHandler netOnlyZero schedSeq (Request.ofInt 2)).bind Run.response
      = some ⟨503, oneFailureBody⟩ := by decide
  obtain ⟨run, hrun, hresp⟩ := Option.bind_eq_some.1 hc
  have h := (failure_body_rejected netOnlyZero (Request.ofInt 2) hp).2.2 schedSeq run _ hrun hresp
  have hpar := h.2 netParent (Request.ofInt 3) 3 false 503 (by decide) (by decide) (by decide)
  exact ⟨hp, hc, h.1, by decide, by decide, by decide, hpar.2.1,
    fun sched2 run2 h2 => ⟨(hpar.2.2 sched2 run2 h2).1,
      ((hpar.2.2 sched2 run2 h2).2.1).trans (by decide),
      ((hpar.2.2 sched2 run2 h2).2.2 1 (by decide)).trans (by decide)⟩⟩

/-! ### The self-recursive topology -/

theorem fibSpec_base (i : Int) (h : i < 2) : fibSpec i = 1 := by
  unfold fibSpec
  have : i.toNat = 0 ∨ i.toNat = 1 := by omega
  rcases this with h0 | h1
  · rw [h0]; rfl
  · rw [h1]; rfl

theorem fibSpec_step (i : Int) (h : 2 ≤ i) : fibSpec i = fibSpec (i - 1) + fibSpec (i - 2) := by
  unfold fibSpec
  obtain ⟨n, hn⟩ : ∃ n : Nat, i.toNat = n + 2 := ⟨i.toNat - 2, by omega⟩
  have h1 : (i - 1).toNat = n + 1 := by omega
  have h2 : (i - 2).toNat = n := by omega
  rw [hn, h1, h2]
  simp [fibNat]

theorem fibNat_mono_succ (n : Nat) : fibNat n ≤ fibNat (n + 1) := by
  cases n with
  | zero => decide
  | succ m => simp [fibNat]

theorem fibNat_le_of_le {m n : Nat} (h : m ≤ n) : fibNat m ≤ fibNat n := by
  induction h with
  | refl => exact le_refl _
  | step _ ih => exact le_trans ih (fibNat_mono_succ _)

/-- Up to index 91 the values of the recursion fit into the 64-bit `int`. -/
theorem fibSpec_inRange (i : Int) (h : i ≤ 91) : InRange (fibSpec i) := by
  have hle : fibNat i.toNat ≤ fibNat 91 := fibNat_le_of_le (by omega)
  have h91 : fibNat 91 = 7540113804746346429 := by decide
  unfold InRange minInt maxInt fibSpec
  omega

theorem fmtInt_injective (x y : Int) (hx : InRange x) (hy : InRange y)
    (h : fmtInt x = fmtInt y) : x = y := by
  have h1 := atoi_fmtInt x hx
  rw [h, atoi_fmtInt y hy] at h1
  exact (Option.some.inj h1).symm

theorem subUrl_cancel (x y : Int) (h : subUrl x = subUrl y) : fmtInt x = fmtInt y :=
  List.append_cancel_left h

theorem inRange_sub (i : Int) (k : Int) (hi : InRange i) (h2 : 2 ≤ i) (hk : k = 1 ∨ k = 2) :
    InRange (i - k) := by
  unfold InRange minInt maxInt at *
  omega

theorem fibSpec_wrap_step (i : Int) (h2 : 2 ≤ i) :
    wrapInt (wrapInt (fibSpec (i - 1)) + wrapInt (fibSpec (i - 2))) = wrapInt (fibSpec i) :=
  (wrapInt_add_wrapInt (fibSpec (i - 1)) (fibSpec (i - 2))).trans
    (congrArg wrapInt (fibSpec_step i h2).symm)

theorem fibSpec_wrap_base (i : Int) (h : i < 2) :
    (⟨200, ['1']⟩ : Response) = ⟨200, fmtInt (wrapInt (fibSpec i))⟩ :=
  (show (⟨200, ['1']⟩ : Response) = ⟨200, fmtInt (wrapInt 1)⟩ by decide).trans
    (congrArg (fun v => (⟨200, fmtInt (wrapInt v)⟩ : Response)) (fibSpec_base i h).symm)

/-- On the self-recursive topology every response to `i=<i>` is 200 with the
wrapped value of the recursion as body. -/
theorem selfResponds_unique (k : Nat) :
    ∀ i : Int, InRange i → i.toNat ≤ k → ∀ r, SelfResponds (Request.ofInt i) r →
      r = ⟨200, fmtInt (wrapInt (fibSpec i))⟩ := by
  induction k using Nat.strong_induction_on with
  | _ k ih =>
    intro i hi hk r hr
    by_cases hlt : i < 2
    · cases hr with
      | intro net sched _ run _ kids hrun hresp hnet hkids =>
        have h' := fibHandler_base net sched (Request.ofInt i) i (parseIndex_ofInt i hi) hlt
        rw [hrun] at h'
        rw [Option.some.inj h'] at hresp
        exact (Option.some.inj (hresp.symm.trans
          (show Run.response ⟨ResponseWriter.new.Write (fmtInt 1), 1, [], [], []⟩
            = some ⟨200, ['1']⟩ by decide))).trans (fibSpec_wrap_base i hlt)
    · have h2 : 2 ≤ i := by omega
      cases hr with
      | intro net sched _ run _ kids hrun hresp hnet hkids =>
        obtain ⟨_, _, _, hcalls, _⟩ :=
          fibHandler_fanout net sched (Request.ofInt i) i run (parseIndex_ofInt i hi) h2 hrun
        have hm1 : subUrl (i - 1) ∈ run.calls := by rcases hcalls with hc | hc <;> simp [hc]
        have hm2 : subUrl (i - 2) ∈ run.calls := by rcases hcalls with hc | hc <;> simp [hc]
        have hk1 := ih (k - 1) (by omega) (i - 1) (inRange_sub i 1 hi h2 (Or.inl rfl))
          (by omega) _ (hkids _ hm1)
        have hk2 := ih (k - 1) (by omega) (i - 2) (inRange_sub i 2 hi h2 (Or.inr rfl))
          (by omega) _ (hkids _ hm2)
        have ho1 : subResult (net (subUrl (i - 1))) = some (wrapInt (fibSpec (i - 1))) := by
          rw [hnet _ hm1, hk1]
          simp only [subResult]
          exact atoi_fmtInt _ (wrapInt_inRange _)
        have ho2 : subResult (net (subUrl (i - 2))) = some (wrapInt (fibSpec (i - 2))) := by
          rw [hnet _ hm2, hk2]
          simp only [subResult]
          exact atoi_fmtInt _ (wrapInt_inRange _)
        exact (Option.some.inj (hresp.symm.trans
          (fibHandler_fanout_ok net sched (Request.ofInt i) i _ _ run
            (parseIndex_ofInt i hi) h2 hrun ho1 ho2))).trans
          (congrArg (fun v => (⟨200, fmtInt v⟩ : Response)) (fibSpec_wrap_step i h2))

/-- On the self-recursive topology the request `i=<i>` does get a response. -/
theorem selfResponds_exists (k : Nat) :
    ∀ i : Int, InRange i → i.toNat ≤ k →
      SelfResponds (Request.ofInt i) ⟨200, fmtInt (wrapInt (fibSpec i))⟩ := by
  induction k using Nat.strong_induction_on with
  | _ k ih =>
    intro i hi hk
    by_cases hlt : i < 2
    · have hrun := fibHandler_base netDown [] (Request.ofInt i) i (parseIndex_ofInt i hi) hlt
      have h := SelfResponds.intro netDown [] (Request.ofInt i) _ ⟨200, ['1']⟩
        (fun _ => ⟨200, []⟩) hrun (by decide)
        (by intro n hn; simp at hn)
        (by intro n hn; simp at hn)
      rw [fibSpec_wrap_base i hlt] at h
      exact h
    · have h2 : 2 ≤ i := by omega
      have hr1 := inRange_sub i 1 hi h2 (Or.inl rfl)
      have hr2 := inRange_sub i 2 hi h2 (Or.inr rfl)
      have hs1 := ih (k - 1) (by omega) (i - 1) hr1 (by omega)
      have hs2 := ih (k - 1) (by omega) (i - 2) hr2 (by omega)
      have hne : subUrl (i - 2) ≠ subUrl (i - 1) := by
        intro h
        have := fmtInt_injective _ _ hr2 hr1 (subUrl_cancel _ _ h)
        omega
      generalize hb1 : fmtInt (wrapInt (fibSpec (i - 1))) = b1 at hs1
      generalize hb2 : fmtInt (wrapInt (fibSpec (i - 2))) = b2 at hs2
      have ha1 : atoi b1 = some (wrapInt (fibSpec (i - 1))) := by
        rw [← hb1]; exact atoi_fmtInt _ (wrapInt_inRange _)
      have ha2 : atoi b2 = some (wrapInt (fibSpec (i - 2))) := by
        rw [← hb2]; exact atoi_fmtInt _ (wrapInt_inRange _)
      obtain ⟨run, hrun, _⟩ :=
        (fibHandler_complete_fanout
          (fun url => if url = subUrl (i - 1) then Reply.ok 200 b1 else Reply.ok 200 b2)
          (Request.ofInt i) i (parseIndex_ofInt i hi) h2).1
      obtain ⟨_, _, _, hcalls, _⟩ :=
        fibHandler_fanout _ schedSeq (Request.ofInt i) i run (parseIndex_ofInt i hi) h2 hrun
      have hmem : ∀ n, subUrl n ∈ run.calls →
          subUrl n = subUrl (i - 1) ∨ subUrl n = subUrl (i - 2) := by
        intro n hn
        rcases hcalls with hc | hc
        · rw [hc] at hn
          simpa using hn
        · rw [hc] at hn
          have := (List.mem_cons.1 hn)
          rcases this with h | h
          · exact Or.inr h
          · exact Or.inl (by simpa using h)
      have ho1 : subResult ((fun url => if url = subUrl (i - 1) then Reply.ok 200 b1
          else Reply.ok 200 b2) (subUrl (i - 1))) = some (wrapInt (fibSpec (i - 1))) := by
        simp only [if_true, subResult]
        exact ha1
      have ho2 : subResult ((fun url => if url = subUrl (i - 1) then Reply.ok 200 b1
          else Reply.ok 200 b2) (subUrl (i - 2))) = some (wrapInt (fibSpec (i - 2))) := by
        simp only [hne, if_false, subResult]
        exact ha2
      have h := SelfResponds.intro _ schedSeq (Request.ofInt i) run _
        (fun n => if subUrl n = subUrl (i - 1) then ⟨200, b1⟩ else ⟨200, b2⟩) hrun
        (fibHandler_fanout_ok _ schedSeq (Request.ofInt i) i _ _ run
          (parseIndex_ofInt i hi) h2 hrun ho1 ho2)
        (by
          intro n _
          by_cases hn : subUrl n = subUrl (i - 1)
          · simp only [hn, if_true]
          · simp only [hn, if_false])
        (by
          intro n hmn
          by_cases hn : subUrl n = subUrl (i - 1)
          · have : Request.ofInt n = Request.ofInt (i - 1) := by
              simp only [Request.ofInt, subUrl_cancel _ _ hn]
            simp only [hn, if_true]
            rw [this]
            exact hs1
          · have hn2 : subUrl n = subUrl (i - 2) := by
              rcases hmem n hmn with h | h
              · exact absurd h hn
              · exact h
            have : Request.ofInt n = Request.ofInt (i - 2) := by
              simp only [Request.ofInt, subUrl_cancel _ _ hn2]
            simp only [hn, if_false]
            rw [this]
            exact hs2)
      rw [congrArg (fun v => (⟨200, fmtInt v⟩ : Response)) (fibSpec_wrap_step i h2)] at h
      exact h

/-- C1, as the code has it: on the self-recursive topology, for every index
`i` that is a Go `int`, the request `i=<i>` gets a response, and every response
it can get has status 200 and as body the decimal rendering of `f(i)` wrapped
into the 64-bit `int`, where `f` is the pure recursion `fibSpec` (`f(i) = 1`
for `i < 2`, `f(i) = f(i-1) + f(i-2)` for `2 ≤ i`). For `i ≤ 91` nothing wraps:
the body is the rendering of `f(i)` itself. -/
theorem self_recursive_fib (i : Int) (hi : InRange i) :
    SelfResponds (Request.ofInt i) ⟨200, fmtInt (wrapInt (fibSpec i))⟩ ∧
    (∀ r, SelfResponds (Request.ofInt i) r → r = ⟨200, fmtInt (wrapInt (fibSpec i))⟩) ∧
    (i ≤ 91 → wrapInt (fibSpec i) = fibSpec i) ∧
    (i < 2 → fibSpec i = 1) ∧
    (2 ≤ i → fibSpec i = fibSpec (i - 1) + fibSpec (i - 2)) :=
  ⟨selfResponds_exists i.toNat i hi (le_refl _),
    selfResponds_unique i.toNat i hi (le_refl _),
    fun h => wrapInt_of_inRange _ (fibSpec_inRange i h),
    fibSpec_base i, fibSpec_step i⟩

theorem self_recursive_fib_witness :
    InRange 6 ∧ fmtInt (wrapInt (fibSpec 6)) = "13".toList ∧
    (SelfResponds (Request.ofInt 6) ⟨200, fmtInt (wrapInt (fibSpec 6))⟩ ∧
    (∀ r, SelfResponds (Request.ofInt 6) r → r = ⟨200, fmtInt (wrapInt (fibSpec 6))⟩) ∧
    ((6 : Int) ≤ 91 → wrapInt (fibSpec 6) = fibSpec 6) ∧
    ((6 : Int) < 2 → fibSpec 6 = 1) ∧
    ((2 : Int) ≤ 6 → fibSpec 6 = fibSpec (6 - 1) + fibSpec (6 - 2))) :=
  ⟨by decide, by decide, self_recursive_fib 6 (by decide)⟩

/-- C1 as stated fails at `i = 92`: `f(92) = 12200160415121876738` does not fit
into the 64-bit `int`, and every response of the self-recursive service to
`i=92` has the body `-6246583658587674878`. It also fails for an integer that
is no Go `int`: `i=9223372036854775808` is answered as malformed input. -/
theorem self_recursive_fib_overflow :
    SelfResponds (Request.ofInt 92) ⟨200, "-6246583658587674878".toList⟩ ∧
    (∀ r, SelfResponds (Request.ofInt 92) r →
      r = ⟨200, "-6246583658587674878".toList⟩) ∧
    fmtInt (fibSpec 92) = "12200160415121876738".toList ∧
    (∀ (net : List Char → Reply) (sched : List Bool),
      (fibHandler net sched (Request.ofInt 9223372036854775808)).bind Run.response
        = some ⟨200, "Couldn\x27t parse index \x27[9223372036854775808]\x27.".toList⟩) := by
  have e : fmtInt (wrapInt (fibSpec 92)) = "-6246583658587674878".toList := by decide
  have h1 := selfResponds_exists 92 92 (by decide) (by decide)
  have h2 := selfResponds_unique 92 92 (by decide) (by decide)
  rw [e] at h1 h2
  refine ⟨h1, h2, by decide, ?_⟩
  intro net sched
  rw [fibHandler_malformed net sched _ (by decide)]
  decide

/-! ### The resource sampler -/

/-- C8: every iteration of the sampler loop records exactly one batch of the
four measurements `disk_usage`, `disk_quota`, `mem_usage`, `num_goroutines`,
with `disk_quota = Blocks * Bsize` and `disk_usage` that minus `Bfree * Bsize`;
when the file system statistics cannot be read the batch of that iteration is
recorded all the same, with both disk values zero, and the next iteration
follows. -/
theorem updateDiskMetrics_batches (M : Float64) (env : Nat → Readings) (n : Nat) :
    (updateDiskMetrics M env n).length = n ∧
    updateDiskMetrics M env (n + 1) = updateDiskMetrics M env n ++ [sample M (env n)] ∧
    (sample M (env n)).measurements.map Measurement.name
      = ["disk_usage", "disk_quota", "mem_usage", "num_goroutines"] ∧
    (∀ s, (env n).statfs = some s →
      (sample M (env n)).measurements =
        [Measurement.float64 "disk_usage"
            (M.sub (M.mul (M.ofUint64 s.Blocks) (M.ofInt64 s.Bsize))
              (M.mul (M.ofUint64 s.Bfree) (M.ofInt64 s.Bsize))),
          Measurement.float64 "disk_quota" (M.mul (M.ofUint64 s.Blocks) (M.ofInt64 s.Bsize)),
          Measurement.int64 "mem_usage" (wrapInt (env n).Sys),
          Measurement.int64 "num_goroutines" (env n).NumGoroutine]) ∧
    ((env n).statfs = none →
      (sample M (env n)).measurements =
        [Measurement.float64 "disk_usage" M.zero,
          Measurement.float64 "disk_quota" M.zero,
          Measurement.int64 "mem_usage" (wrapInt (env n).Sys),
          Measurement.int64 "num_goroutines" (env n).NumGoroutine]) := by
  refine ⟨?_, rfl, rfl, ?_, ?_⟩
  · induction n with
    | zero => rfl
    | succ k ih => simp [updateDiskMetrics, ih]
  · intro s hs
    simp [sample, statAfter, hs]
  · intro hs
    simp [sample, statAfter, hs, Statfs_t.zero, M.ofUint64_zero, M.ofInt64_zero, M.mul_zero,
      M.sub_zero]

end FibService
